import Mathlib

/-!
# ghissuemarket-cli: the event ledger and the settlement sequence

A shallow embedding of `src/ghissuemarket-cli.go`.  Every command handler of
the Go program is a function from the flag values and a `World` (the three
log files, the standard output, and how far the process has consumed its
environment) to an `Outcome`.  Everything the program obtains from outside is
read from an `Env`: the clock, the UUID generator, the external processes
(`lncli`, the feedback engine), the file system, and the text that
`encoding/json` produces or decodes.  `log.Fatalf` ends the process: it is the
`fatal` outcome.  Two histories are kept next to the program state: the
external calls made and the `saveEntryToLog` calls made.
-/

namespace GhIssueMarket

/-! ## Data model -/

/-- A Go `float64` flag value.  The program only stores and serialises these
values (the one multiplication, in `add-invoice`, is read from the
environment), so a value is identified by its IEEE-754 bit pattern. -/
structure Float64 where
  bits : Nat
deriving DecidableEq, Repr

/-- Neither NaN nor an infinity: the eleven exponent bits are not all ones. -/
def Float64.isFinite (f : Float64) : Bool :=
  decide ((f.bits / 2 ^ 52) % 2 ^ 11 ≠ 2047)

/-- Auction structure (`type Auction struct`), `int64` fields as `Int`. -/
structure Auction where
  UUID : String
  AuctionID : String
  IssueID : String
  Issue : String
  StartingPrice : Float64
  OpenTime : Int
  CloseTime : Int
  AnnouncementTime : Int
  Metadata : String
  State : String
  Timestamp : Int
  AuctioneerPubKey : String
deriving DecidableEq, Repr

/-- Bid structure (`type Bid struct`). -/
structure Bid where
  UUID : String
  AuctionID : String
  BidderID : String
  Amount : Float64
  Metadata : String
  State : String
  Timestamp : Int
  BidderPubKey : String
deriving DecidableEq, Repr

/-- Invoice structure (`type Invoice struct`). -/
structure Invoice where
  UUID : String
  InvoiceID : String
  AuctionID : String
  Amount : Int
  Memo : String
  State : String
  Timestamp : Int
deriving DecidableEq, Repr

/-- Issue structure (`type Issue struct`). -/
structure Issue where
  UUID : String
  IssueID : String
  IssueDescription : String
  EstimatedCost : Float64
  Metadata : String
  Timestamp : Int
  State : String
deriving DecidableEq, Repr

/-- A value of a decoded JSON object, as far as the program inspects it: the
only test made on a decoded value is the type assertion `.(string)`. -/
inductive JVal where
  | str (s : String)
  | other (raw : String)
deriving DecidableEq, Repr

/-- A Go `map[string]interface{}` filled by `json.Unmarshal`: `none` is the nil
map (what decoding the JSON text `null` leaves behind). -/
abbrev GoMap := Option (List (String × JVal))

/-- The Go expression `m[key].(string)`: the value and the `ok` flag in one. -/
def GoMap.getString (m : GoMap) (key : String) : Option String :=
  match m with
  | none => none
  | some kvs =>
    match kvs.lookup key with
    | some (JVal.str s) => some s
    | _ => none

/-- The values the program stores in a log entry (`interface{}`). -/
inductive EntryVal where
  | str (s : String)
  | int (i : Int)
  | auction (a : Auction)
  | bid (b : Bid)
  | invoice (i : Invoice)
  | issue (i : Issue)
  | jmap (m : GoMap)
deriving DecidableEq, Repr

/-- A log entry, the Go `map[string]interface{}` literal, keys in the order of
the source. -/
abbrev Entry := List (String × EntryVal)

/-- The three log files (`logFile`, `privateLogFile`, `sysLogFile`). -/
inductive LogTarget where
  | logFile
  | privateLogFile
  | sysLogFile
deriving DecidableEq, Repr

/-- The external processes the program starts with `exec.Command`. -/
inductive BackendCall where
  | getinfo
  | addinvoice (amount : String)
  | openchannel (peer : String) (capacity : String)
  | payinvoice (paymentRequest : String)
  | lookupinvoice (paymentRequest : String)
  | closechannel (peer : String)
  | walletbalance
  | feedbackEngine (query : String)
deriving DecidableEq, Repr

/-- What `Output()` / `CombinedOutput()` return: the bytes and the error. -/
structure ExecResult where
  out : String
  err : Option String
deriving DecidableEq, Repr

/-! ## Environment and process state -/

/-- Everything the process reads from outside. -/
structure Env where
  /-- the k-th reading of `time.Now().Unix()` -/
  now : Nat → Int
  /-- the k-th `uuid.New().String()` -/
  newUUID : Nat → String
  /-- the result of an external call, given the calls already made -/
  exec : List BackendCall → BackendCall → ExecResult
  /-- the error of `os.OpenFile` when it is the k-th file operation -/
  openFile : Nat → LogTarget → Option String
  /-- how many characters the k-th file operation, a `Write` of the given
  text, gets onto the file (fewer than its length: the write failed) -/
  write : Nat → LogTarget → String → Nat
  /-- the text `json.Marshal` produces for a log entry it accepts -/
  encode : Entry → String
  /-- the text `json.MarshalIndent(data, "", "  ")` produces for a record it
  accepts -/
  encodeIndent : EntryVal → String
  /-- the library function `json.Unmarshal` into a `map[string]interface{}` -/
  jsonUnmarshal : String → Except String GoMap
  /-- the float computation `int64(amountFloat * 1000)` -/
  toMilli : Float64 → Int

/-- Whether `encoding/json` accepts the value: it returns an
`UnsupportedValueError` for a float that is NaN or infinite, and the only
floats the program marshals are the float fields of its records (a map
decoded from JSON holds finite numbers only). -/
def EntryVal.marshalable : EntryVal → Bool
  | EntryVal.auction a => a.StartingPrice.isFinite
  | EntryVal.bid b => b.Amount.isFinite
  | EntryVal.issue i => i.EstimatedCost.isFinite
  | _ => true

/-- The library function `json.Marshal` on a log entry. -/
def Env.jsonMarshal (env : Env) (entry : Entry) : Except String String :=
  if entry.all (fun kv => kv.2.marshalable) then Except.ok (env.encode entry)
  else Except.error "json: unsupported value"

/-- The library function `json.MarshalIndent(data, "", "  ")`. -/
def Env.jsonMarshalIndent (env : Env) (data : EntryVal) : Except String String :=
  if data.marshalable then Except.ok (env.encodeIndent data)
  else Except.error "json: unsupported value"

/-- The state of a run. -/
structure World where
  /-- contents of `logFile`, the public ledger -/
  publicLog : String
  /-- contents of `privateLogFile`, the private ledger -/
  privateLog : String
  /-- contents of `sysLogFile`, the diagnostic ledger -/
  sysLog : String
  /-- the external calls made, oldest first -/
  calls : List BackendCall
  /-- the calls of `saveEntryToLog` made, oldest first -/
  saves : List (LogTarget × Entry)
  /-- what was printed on standard output, oldest first -/
  stdout : List String
  /-- number of clock readings taken -/
  clockReads : Nat
  /-- number of UUIDs drawn -/
  uuids : Nat
  /-- number of file operations (`OpenFile`, `Write`) issued -/
  fileOps : Nat
deriving DecidableEq, Repr

/-- Contents of a log file. -/
def World.log (w : World) : LogTarget → String
  | LogTarget.logFile => w.publicLog
  | LogTarget.privateLogFile => w.privateLog
  | LogTarget.sysLogFile => w.sysLog

/-- Replace the contents of a log file. -/
def World.setLog (w : World) (t : LogTarget) (c : String) : World :=
  match t with
  | LogTarget.logFile => { w with publicLog := c }
  | LogTarget.privateLogFile => { w with privateLog := c }
  | LogTarget.sysLogFile => { w with sysLog := c }

/-- How a handler ends: it returns (`ok`), or `log.Fatalf` ended the process
(`fatal`); either way with the world it leaves. -/
inductive Outcome (α : Type) where
  | ok (a : α) (w : World)
  | fatal (w : World)

/-- The world an outcome leaves. -/
def Outcome.world {α : Type} : Outcome α → World
  | Outcome.ok _ w => w
  | Outcome.fatal w => w

/-- Whether the process was ended by `log.Fatalf`. -/
def Outcome.isFatal {α : Type} : Outcome α → Bool
  | Outcome.ok _ _ => false
  | Outcome.fatal _ => true

/-! ## Primitive effects -/

/-- The call `time.Now().Unix()`. -/
def timeNowUnix (env : Env) (w : World) : Int × World :=
  (env.now w.clockReads, { w with clockReads := w.clockReads + 1 })

/-- The call `uuid.New().String()`. -/
def uuidNewString (env : Env) (w : World) : String × World :=
  (env.newUUID w.uuids, { w with uuids := w.uuids + 1 })

/-- Running an external command and collecting its output. -/
def execCommand (env : Env) (c : BackendCall) (w : World) : ExecResult × World :=
  (env.exec w.calls c, { w with calls := w.calls ++ [c] })

/-- Printing on standard output (`fmt.Println`, `fmt.Printf`). -/
def printOut (text : String) (w : World) : World :=
  { w with stdout := w.stdout ++ [text] }

/-- The call `logFileHandle.Write(b)` on a file opened with `O_APPEND`: the
part of `b` that the file system accepts goes to the end of the file.  The
Go code discards both results of `Write`. -/
def fileWrite (env : Env) (t : LogTarget) (b : String) (w : World) : World :=
  let n := env.write w.fileOps t b
  { (w.setLog t (w.log t ++ String.mk (b.toList.take n))) with fileOps := w.fileOps + 1 }

/-! ## Utility functions of the source -/

/-- The function `saveEntryToLog`: open for append (fatal on error), marshal
(fatal on error), write the record, write the newline.  The call itself is
noted in `saves`, whatever becomes of it. -/
def saveEntryToLog (env : Env) (entry : Entry) (target : LogTarget) (w : World) :
    Outcome Unit :=
  let w0 := { w with saves := w.saves ++ [(target, entry)] }
  match env.openFile w0.fileOps target with
  | some _ => Outcome.fatal { w0 with fileOps := w0.fileOps + 1 }
  | none =>
    let w1 := { w0 with fileOps := w0.fileOps + 1 }
    match env.jsonMarshal entry with
    | Except.error _ => Outcome.fatal w1
    | Except.ok eventJSON =>
      let w2 := fileWrite env target eventJSON w1
      let w3 := fileWrite env target "\n" w2
      Outcome.ok () w3

/-- The function `saveDataToLog`. -/
def saveDataToLog (env : Env) (data : EntryVal) (eventType : String) (target : LogTarget)
    (w : World) : Outcome Unit :=
  let (t, w1) := timeNowUnix env w
  let entry : Entry :=
    [("type", EntryVal.str eventType), ("timestamp", EntryVal.int t), ("data", data)]
  saveEntryToLog env entry target w1

/-- The function `saveDataToLogWithMetadata`. -/
def saveDataToLogWithMetadata (env : Env) (data : EntryVal) (eventType : String)
    (metadata : GoMap) (target : LogTarget) (w : World) : Outcome Unit :=
  let (t, w1) := timeNowUnix env w
  let entry : Entry :=
    [("type", EntryVal.str eventType), ("timestamp", EntryVal.int t), ("data", data),
     ("metadata", EntryVal.jmap metadata)]
  saveEntryToLog env entry target w1

/-- The function `toJSON`: fatal when `json.MarshalIndent` fails. -/
def toJSON (env : Env) (data : EntryVal) (w : World) : Outcome String :=
  match env.jsonMarshalIndent data with
  | Except.error _ => Outcome.fatal w
  | Except.ok jsonData => Outcome.ok jsonData w

/-- The statement `fmt.Println(toJSON(data))`. -/
def printlnJSON (env : Env) (data : EntryVal) (w : World) : Outcome Unit :=
  match toJSON env data w with
  | Outcome.fatal w1 => Outcome.fatal w1
  | Outcome.ok text w1 => Outcome.ok () (printOut (text ++ "\n") w1)

/-- The function `logError`. -/
def logError (env : Env) (message : String) (w : World) : Outcome Unit :=
  let (t, w1) := timeNowUnix env w
  let event : Entry :=
    [("type", EntryVal.str "error"), ("timestamp", EntryVal.int t),
     ("message", EntryVal.str message)]
  saveEntryToLog env event LogTarget.sysLogFile w1

/-- The function `getPublicKey`: the Go pair `(string, error)` as an `Except`
whose error is the text of the error. -/
def getPublicKey (env : Env) (command : String) (w : World) : Except String String × World :=
  let (r, w1) := execCommand env BackendCall.getinfo w
  match r.err with
  | some e => (Except.error ("lncli getinfo failed for " ++ command ++ ": " ++ e), w1)
  | none =>
    match env.jsonUnmarshal r.out with
    | Except.error e =>
      (Except.error ("failed to parse lncli getinfo output for " ++ command ++ ": " ++ e), w1)
    | Except.ok result =>
      match result.getString "identity_pubkey" with
      | none =>
        (Except.error
          ("failed to extract public key from lncli getinfo response for " ++ command), w1)
      | some pubKey => (Except.ok pubKey, w1)

/-- The function `logWalletBalance`. -/
def logWalletBalance (env : Env) (w : World) : Outcome String :=
  let (r, w1) := execCommand env BackendCall.walletbalance w
  match r.err with
  | some e =>
    match logError env ("Failed to fetch wallet balance: " ++ e) w1 with
    | Outcome.fatal w2 => Outcome.fatal w2
    | Outcome.ok _ w2 => Outcome.ok "" w2
  | none =>
    let (t, w2) := timeNowUnix env w1
    let event : Entry :=
      [("type", EntryVal.str "wallet-balance"), ("data", EntryVal.str r.out),
       ("timestamp", EntryVal.int t)]
    match saveEntryToLog env event LogTarget.privateLogFile w2 with
    | Outcome.fatal w3 => Outcome.fatal w3
    | Outcome.ok _ w3 => Outcome.ok r.out w3

/-! ## Command handlers -/

/-- The `open-auction` command. -/
def openAuctionCmd (env : Env) (auctionID issueID issue : String) (startingPrice : Float64)
    (openTime closeTime : Int) (metadata : String) (w : World) : Outcome Unit :=
  let (announcementTime, w1) := timeNowUnix env w
  match getPublicKey env "open-auction" w1 with
  | (Except.error err, w2) =>
    logError env ("Failed to retrieve auctioneer public key for open-auction: " ++ err) w2
  | (Except.ok auctioneerPubKey, w2) =>
    let (uuid, w3) := uuidNewString env w2
    let auction : Auction :=
      { UUID := uuid
        AuctionID := auctionID
        IssueID := issueID
        Issue := issue
        StartingPrice := startingPrice
        OpenTime := openTime
        CloseTime := closeTime
        AnnouncementTime := announcementTime
        Metadata := metadata
        State := "Open"
        Timestamp := announcementTime
        AuctioneerPubKey := auctioneerPubKey }
    match saveDataToLog env (EntryVal.auction auction) "auction-opened" LogTarget.logFile w3 with
    | Outcome.fatal w4 => Outcome.fatal w4
    | Outcome.ok _ w4 =>
      printlnJSON env (EntryVal.auction auction) w4

/-- The `close-auction` command. -/
def closeAuctionCmd (env : Env) (auctionID : String) (w : World) : Outcome Unit :=
  match getPublicKey env "close-auction" w with
  | (Except.error err, w1) =>
    logError env ("Failed to retrieve auctioneer public key for close-auction: " ++ err) w1
  | (Except.ok auctioneerPubKey, w1) =>
    let (t, w2) := timeNowUnix env w1
    let entry : Entry :=
      [("type", EntryVal.str "auction-closed"), ("auction_id", EntryVal.str auctionID),
       ("auctioneer_pubkey", EntryVal.str auctioneerPubKey), ("timestamp", EntryVal.int t)]
    match saveEntryToLog env entry LogTarget.logFile w2 with
    | Outcome.fatal w3 => Outcome.fatal w3
    | Outcome.ok _ w3 => Outcome.ok () (printOut ("Auction " ++ auctionID ++ " closed.\n") w3)

/-- The `place-bid` command. -/
def placeBidCmd (env : Env) (auctionID bidderID : String) (bidAmount : Float64)
    (metadata : String) (w : World) : Outcome Unit :=
  match getPublicKey env "place-bid" w with
  | (Except.error err, w1) =>
    logError env ("Failed to retrieve bidder public key for place-bid: " ++ err) w1
  | (Except.ok bidderPubKey, w1) =>
    let (uuid, w2) := uuidNewString env w1
    let (t, w3) := timeNowUnix env w2
    let bid : Bid :=
      { UUID := uuid
        AuctionID := auctionID
        BidderID := bidderID
        Amount := bidAmount
        Metadata := metadata
        State := "Placed"
        Timestamp := t
        BidderPubKey := bidderPubKey }
    match saveDataToLog env (EntryVal.bid bid) "bid-placed" LogTarget.logFile w3 with
    | Outcome.fatal w4 => Outcome.fatal w4
    | Outcome.ok _ w4 =>
      printlnJSON env (EntryVal.bid bid) w4

/-- The `announce-winner` command. -/
def announceWinnerCmd (env : Env) (auctionID bidderID : String) (w : World) : Outcome Unit :=
  match getPublicKey env "announce-winner" w with
  | (Except.error err, w1) =>
    logError env ("Failed to retrieve auctioneer public key for announce-winner: " ++ err) w1
  | (Except.ok auctioneerPubKey, w1) =>
    let (t, w2) := timeNowUnix env w1
    let entry : Entry :=
      [("type", EntryVal.str "winner-announced"), ("auction_id", EntryVal.str auctionID),
       ("bidder_id", EntryVal.str bidderID),
       ("auctioneer_pubkey", EntryVal.str auctioneerPubKey), ("timestamp", EntryVal.int t)]
    match saveEntryToLog env entry LogTarget.logFile w2 with
    | Outcome.fatal w3 => Outcome.fatal w3
    | Outcome.ok _ w3 =>
      Outcome.ok ()
        (printOut ("Winner announced for auction " ++ auctionID ++ ": Bidder " ++ bidderID ++ "\n")
          w3)

/-- The `add-invoice` command. -/
def addInvoiceCmd (env : Env) (auctionID : String) (amountFloat : Float64) (memo : String)
    (w : World) : Outcome Unit :=
  let amount := env.toMilli amountFloat
  let (r, w1) := execCommand env (BackendCall.addinvoice (toString amount)) w
  match r.err with
  | some e =>
    logError env ("Failed to create invoice using lncli: " ++ e ++ ", Output: " ++ r.out) w1
  | none =>
    match env.jsonUnmarshal r.out with
    | Except.error e => logError env ("Failed to parse lncli output: " ++ e) w1
    | Except.ok lncliResult =>
      let (u1, w2) := uuidNewString env w1
      let invoiceID := "invoice-" ++ auctionID ++ "-" ++ u1
      let (u2, w3) := uuidNewString env w2
      let (t, w4) := timeNowUnix env w3
      let invoice : Invoice :=
        { UUID := u2
          InvoiceID := invoiceID
          AuctionID := auctionID
          Amount := amount
          Memo := memo
          State := "Created"
          Timestamp := t }
      match saveDataToLogWithMetadata env (EntryVal.invoice invoice) "invoice-created"
          lncliResult LogTarget.logFile w4 with
      | Outcome.fatal w5 => Outcome.fatal w5
      | Outcome.ok _ w5 =>
        printlnJSON env (EntryVal.invoice invoice) w5

/-- The channel size the `pay-invoice` command passes to `openchannel`. -/
def channelCapacity : String := "1000000000000"

/-- The `pay-invoice` command. -/
def payInvoiceCmd (env : Env) (paymentRequest bidderPubKey : String) (w : World) :
    Outcome Unit :=
  let (opened, w1) := execCommand env (BackendCall.openchannel bidderPubKey channelCapacity) w
  match opened.err with
  | some e => logError env ("Failed to open channel: " ++ e ++ ", Output: " ++ opened.out) w1
  | none =>
    let (paid, w2) := execCommand env (BackendCall.payinvoice paymentRequest) w1
    match paid.err with
    | some e => logError env ("Failed to pay invoice: " ++ e ++ ", Output: " ++ paid.out) w2
    | none =>
      let (looked, w3) := execCommand env (BackendCall.lookupinvoice paymentRequest) w2
      match looked.err with
      | some e =>
        logError env ("Failed to lookup invoice: " ++ e ++ ", Output: " ++ looked.out) w3
      | none =>
        match env.jsonUnmarshal looked.out with
        | Except.error e => logError env ("Failed to parse lookup invoice output: " ++ e) w3
        | Except.ok lookupResult =>
          let w4 :=
            printOut
              (if lookupResult.getString "state" = some "SETTLED" then
                "Invoice paid successfully. Payment request: " ++ paymentRequest ++ "\n"
              else "Payment not settled yet or failed.\n") w3
          let (closed, w5) := execCommand env (BackendCall.closechannel bidderPubKey) w4
          match closed.err with
          | some e =>
            logError env ("Failed to close channel: " ++ e ++ ", Output: " ++ closed.out) w5
          | none =>
            let (t, w6) := timeNowUnix env w5
            let event : Entry :=
              [("type", EntryVal.str "invoice-paid"),
               ("payment_request", EntryVal.str paymentRequest),
               ("metadata", EntryVal.str paid.out), ("timestamp", EntryVal.int t)]
            match saveEntryToLog env event LogTarget.privateLogFile w6 with
            | Outcome.fatal w7 => Outcome.fatal w7
            | Outcome.ok _ w7 =>
              match logWalletBalance env w7 with
              | Outcome.fatal w8 => Outcome.fatal w8
              | Outcome.ok _ w8 => Outcome.ok () w8

/-- The `walletbalance` command. -/
def walletBalanceCmd (env : Env) (w : World) : Outcome Unit :=
  match logWalletBalance env w with
  | Outcome.fatal w1 => Outcome.fatal w1
  | Outcome.ok balance w1 => Outcome.ok () (printOut ("Wallet balance: " ++ balance ++ "\n") w1)

/-- The `query` command, on its first argument. -/
def queryCmd (env : Env) (queryStr : String) (w : World) : Outcome Unit :=
  let w0 := printOut ("Executing query: " ++ queryStr ++ "\n") w
  let (r, w1) := execCommand env (BackendCall.feedbackEngine queryStr) w0
  match r.err with
  | some e =>
    match logError env ("Error executing feedback engine: " ++ e ++ ", Output: " ++ r.out) w1 with
    | Outcome.fatal w2 => Outcome.fatal w2
    | Outcome.ok _ w2 =>
      Outcome.ok () (printOut "Error executing query. Please check the logs for more details.\n" w2)
  | none =>
    if r.out.length = 0 then Outcome.ok () (printOut "No response from the feedback engine.\n" w1)
    else Outcome.ok () (printOut ("Query response: " ++ r.out ++ "\n") w1)

/-- The `add-issue` command. -/
def addIssueCmd (env : Env) (issueID issueDescription : String) (estimatedCost : Float64)
    (metadata : String) (w : World) : Outcome Unit :=
  let (uuid, w1) := uuidNewString env w
  let (t, w2) := timeNowUnix env w1
  let issue : Issue :=
    { UUID := uuid
      IssueID := issueID
      IssueDescription := issueDescription
      EstimatedCost := estimatedCost
      Metadata := metadata
      Timestamp := t
      State := "Open" }
  match saveDataToLog env (EntryVal.issue issue) "issue-created" LogTarget.logFile w2 with
  | Outcome.fatal w3 => Outcome.fatal w3
  | Outcome.ok _ w3 =>
    printlnJSON env (EntryVal.issue issue) w3

/-- The `resolve-issue` command. -/
def resolveIssueCmd (env : Env) (issueID resolutionDetails : String) (w : World) :
    Outcome Unit :=
  let (t, w1) := timeNowUnix env w
  let event : Entry :=
    [("type", EntryVal.str "issue-resolved"), ("issue_id", EntryVal.str issueID),
     ("resolution_details", EntryVal.str resolutionDetails), ("timestamp", EntryVal.int t)]
  match saveEntryToLog env event LogTarget.logFile w1 with
  | Outcome.fatal w2 => Outcome.fatal w2
  | Outcome.ok _ w2 =>
    Outcome.ok ()
      (printOut ("Issue " ++ issueID ++ " resolved with details: " ++ resolutionDetails ++ "\n") w2)

/-- One invocation of the program: the subcommand and its flag values
(the commands registered with `rootCmd.AddCommand`). -/
inductive Command where
  | openAuction (auctionID issueID issue : String) (startingPrice : Float64)
      (openTime closeTime : Int) (metadata : String)
  | closeAuction (auctionID : String)
  | placeBid (auctionID bidderID : String) (bidAmount : Float64) (metadata : String)
  | announceWinner (auctionID bidderID : String)
  | addInvoice (auctionID : String) (amount : Float64) (memo : String)
  | payInvoice (paymentRequest bidderPubKey : String)
  | walletBalance
  | query (queryStr : String)
  | addIssue (issueID issueDescription : String) (estimatedCost : Float64) (metadata : String)
  | resolveIssue (issueID resolutionDetails : String)
deriving DecidableEq, Repr

/-- Running one invocation. -/
def Command.run (env : Env) : Command → World → Outcome Unit
  | Command.openAuction a i d p o c m => openAuctionCmd env a i d p o c m
  | Command.closeAuction a => closeAuctionCmd env a
  | Command.placeBid a b p m => placeBidCmd env a b p m
  | Command.announceWinner a b => announceWinnerCmd env a b
  | Command.addInvoice a p m => addInvoiceCmd env a p m
  | Command.payInvoice r k => payInvoiceCmd env r k
  | Command.walletBalance => walletBalanceCmd env
  | Command.query q => queryCmd env q
  | Command.addIssue i d c m => addIssueCmd env i d c m
  | Command.resolveIssue i d => resolveIssueCmd env i d

/-! ## Vocabulary of the statements -/

/-- The entry that `logError` builds. -/
def errorEntry (t : Int) (message : String) : Entry :=
  [("type", EntryVal.str "error"), ("timestamp", EntryVal.int t),
   ("message", EntryVal.str message)]

/-- The `type` tag of an entry. -/
def entryType (e : Entry) : Option String :=
  match e.lookup "type" with
  | some (EntryVal.str t) => some t
  | _ => none

/-- The `saveEntryToLog` call issued when `k` file operations have been made
completes: the target opens, the entry marshals to `js`, and the file system
takes the whole record and the newline. -/
def AppendCompletes (env : Env) (k : Nat) (target : LogTarget) (entry : Entry)
    (js : String) : Prop :=
  env.openFile k target = none ∧ env.jsonMarshal entry = Except.ok js ∧
  js.length ≤ env.write (k + 1) target js ∧ 1 ≤ env.write (k + 2) target "\n"

/-- The file operations of the `saveEntryToLog` call issued when `k` file
operations have been made all succeed on the text `js`: the target opens and
the file system takes the whole record and the newline. -/
def WritesComplete (env : Env) (k : Nat) (target : LogTarget) (js : String) : Prop :=
  env.openFile k target = none ∧
  js.length ≤ env.write (k + 1) target js ∧ 1 ≤ env.write (k + 2) target "\n"

/-- The entry that `saveDataToLog` builds. -/
def dataEntry (eventType : String) (t : Int) (data : EntryVal) : Entry :=
  [("type", EntryVal.str eventType), ("timestamp", EntryVal.int t), ("data", data)]

/-- The entry that `saveDataToLogWithMetadata` builds. -/
def dataEntryWithMetadata (eventType : String) (t : Int) (data : EntryVal)
    (metadata : GoMap) : Entry :=
  [("type", EntryVal.str eventType), ("timestamp", EntryVal.int t), ("data", data),
   ("metadata", EntryVal.jmap metadata)]

/-- The entry that `pay-invoice` builds once the channel is closed. -/
def invoicePaidEntry (paymentRequest metadata : String) (t : Int) : Entry :=
  [("type", EntryVal.str "invoice-paid"), ("payment_request", EntryVal.str paymentRequest),
   ("metadata", EntryVal.str metadata), ("timestamp", EntryVal.int t)]

/-- The entry that `logWalletBalance` builds. -/
def walletBalanceEntry (balance : String) (t : Int) : Entry :=
  [("type", EntryVal.str "wallet-balance"), ("data", EntryVal.str balance),
   ("timestamp", EntryVal.int t)]

/-- Identity resolution fails after the calls `calls`: the `getinfo` call
errors, or its output does not decode into a map, or the decoded map has no
string under `identity_pubkey`. -/
def IdentityFails (env : Env) (calls : List BackendCall) : Prop :=
  (env.exec calls BackendCall.getinfo).err ≠ none ∨
  (∃ e, env.jsonUnmarshal (env.exec calls BackendCall.getinfo).out = Except.error e) ∨
  (∃ m, env.jsonUnmarshal (env.exec calls BackendCall.getinfo).out = Except.ok m ∧
    m.getString "identity_pubkey" = none)

/-- Identity resolution succeeds with key `k` after the calls `calls`. -/
def IdentityResolves (env : Env) (calls : List BackendCall) (k : String) : Prop :=
  (env.exec calls BackendCall.getinfo).err = none ∧
  ∃ m, env.jsonUnmarshal (env.exec calls BackendCall.getinfo).out = Except.ok m ∧
    m.getString "identity_pubkey" = some k

/-- The commands that stamp their event with the actor's public key:
`open-auction`, `close-auction`, `place-bid` and `announce-winner`. -/
def Command.resolvesIdentity : Command → Bool
  | Command.openAuction _ _ _ _ _ _ _ => true
  | Command.closeAuction _ => true
  | Command.placeBid _ _ _ _ => true
  | Command.announceWinner _ _ => true
  | _ => false

/-! ## Sequences of invocations and replay -/

/-- Running invocations one after the other, each a process of its own on the
logs the previous ones left. -/
def runAll (env : Env) (cs : List Command) (w : World) : World :=
  cs.foldl (fun w1 c => (c.run env w1).world) w

/-- The entries handed to the writer for the public ledger, oldest first. -/
def publicEntries (w : World) : List Entry :=
  (w.saves.filter (fun p => decide (p.1 = LogTarget.logFile))).map Prod.snd

/-- A string field of an entry. -/
def entryString (e : Entry) (key : String) : Option String :=
  match e.lookup key with
  | some (EntryVal.str s) => some s
  | _ => none

/-- Modelled from the spec: the auction states of §3 and §4.4,
`Open → Closed → WinnerAnnounced`.  The source stores the state as a string
and has no type for it. -/
inductive AuctionState where
  | Open
  | Closed
  | WinnerAnnounced
deriving DecidableEq, Repr

/-- Modelled from the spec: what replay derives for one auction (§9,
`fold(events) -> Map<DomainId, EntityState>`): its state and, once announced,
its winner.  The source has no replay function. -/
structure AuctionView where
  state : AuctionState
  winner : Option String
deriving DecidableEq, Repr

/-- Modelled from the spec: the auction a lifecycle event belongs to; the
source has no replay function.  An `auction-opened` event carries the id in
its Auction record, `auction-closed` and `winner-announced` at the top
level (§6). -/
def eventAuctionID (e : Entry) : Option String :=
  match entryType e with
  | some "auction-opened" =>
    match e.lookup "data" with
    | some (EntryVal.auction a) => some a.AuctionID
    | _ => none
  | some "auction-closed" => entryString e "auction_id"
  | some "winner-announced" => entryString e "auction_id"
  | _ => none

/-- Modelled from the spec: one step of the replay of §3 and §4.4, which the
source does not implement.  An event of the auction moves it along
`Open → Closed → WinnerAnnounced`; an event that is not the next transition
leaves the state as it is (no transition is skipped or reversed). -/
def replayStep (auctionID : String) (cur : Option AuctionView) (e : Entry) :
    Option AuctionView :=
  if eventAuctionID e = some auctionID then
    match entryType e, cur with
    | some "auction-opened", none => some ⟨AuctionState.Open, none⟩
    | some "auction-closed", some ⟨AuctionState.Open, _⟩ => some ⟨AuctionState.Closed, none⟩
    | some "winner-announced", some ⟨AuctionState.Closed, _⟩ =>
      some ⟨AuctionState.WinnerAnnounced, entryString e "bidder_id"⟩
    | _, _ => cur
  else cur

/-- Modelled from the spec: the state of an auction derived by replaying the
events in log order (§3: "derived by replaying events in log order"); the
source has no replay function. -/
def replay (events : List Entry) (auctionID : String) : Option AuctionView :=
  events.foldl (replayStep auctionID) none

/-! ## Event types and their ledgers -/

/-- The type tags of the entries the source builds: the closed enumeration of
ten event types. -/
def eventTypes : List String :=
  ["auction-opened", "auction-closed", "winner-announced", "bid-placed", "issue-created",
   "issue-resolved", "invoice-created", "invoice-paid", "wallet-balance", "error"]

/-- The event types of the public ledger. -/
def publicEventTypes : List String :=
  ["auction-opened", "auction-closed", "winner-announced", "bid-placed", "issue-created",
   "issue-resolved", "invoice-created"]

/-- Whether an entry handed to the writer belongs on its target: an `error`
entry with a message on the diagnostic ledger, an `invoice-paid` or
`wallet-balance` entry on the private ledger, an entry of one of the seven
public event types on the public ledger. -/
def routed (p : LogTarget × Entry) : Bool :=
  match p.1 with
  | LogTarget.sysLogFile =>
    decide (entryType p.2 = some "error") && (entryString p.2 "message").isSome
  | LogTarget.privateLogFile =>
    decide (entryType p.2 = some "invoice-paid")
      || decide (entryType p.2 = some "wallet-balance")
  | LogTarget.logFile => publicEventTypes.any (fun t => decide (entryType p.2 = some t))

/-- The `saveEntryToLog` calls made between `w` and `w1` all hand the writer
an entry that belongs on its target. -/
def SavesRouted (w w1 : World) : Prop :=
  ∃ added, w1.saves = w.saves ++ added ∧ ∀ p ∈ added, routed p = true

/-! ## Sample environments

A file system that never fails, a clock that advances by one second per
reading, and a stand-in for the output of `encoding/json` that renders an
entry by its type tag; the external processes follow a script. -/

/-- The sample rendering of an entry: its type tag between angle brackets. -/
def sampleEncode (e : Entry) : String :=
  "<" ++ (entryType e).getD "" ++ ">"


/-- A stand-in for `json.Unmarshal` on the outputs the sample scripts use. -/
def sampleUnmarshal (s : String) : Except String GoMap :=
  if s = "getinfo-ok" then Except.ok (some [("identity_pubkey", JVal.str "02ab")])
  else if s = "getinfo-no-key" then Except.ok (some [("version", JVal.str "0.17")])
  else if s = "lookup-settled" then Except.ok (some [("state", JVal.str "SETTLED")])
  else if s = "lookup-open" then Except.ok (some [("state", JVal.str "OPEN")])
  else if s = "null" then Except.ok none
  else Except.error "invalid character"

/-- The sample environment running the external processes by `script`. -/
def sampleEnv (script : BackendCall → ExecResult) : Env where
  now := fun k => 1000 + k
  newUUID := fun k => "uuid-" ++ toString k
  exec := fun _ c => script c
  openFile := fun _ _ => none
  write := fun _ _ b => b.length
  encode := sampleEncode
  encodeIndent := fun _ => "record"
  jsonUnmarshal := sampleUnmarshal
  toMilli := fun _ => 0

/-- The `getinfo` call answers with an object that has no `identity_pubkey`. -/
def scriptGetinfoNoKey : BackendCall → ExecResult
  | BackendCall.getinfo => ⟨"getinfo-no-key", none⟩
  | _ => ⟨"", none⟩

/-- Every external process succeeds. -/
def scriptOk : BackendCall → ExecResult
  | BackendCall.getinfo => ⟨"getinfo-ok", none⟩
  | BackendCall.payinvoice _ => ⟨"payment-preimage", none⟩
  | BackendCall.lookupinvoice _ => ⟨"lookup-settled", none⟩
  | BackendCall.walletbalance => ⟨"balance-7", none⟩
  | _ => ⟨"", none⟩

/-- The `openchannel` call fails, the others succeed. -/
def scriptOpenFails : BackendCall → ExecResult
  | BackendCall.openchannel _ _ => ⟨"no route", some "exit status 1"⟩
  | c => scriptOk c

/-- The `payinvoice` call fails, the others succeed. -/
def scriptPayFails : BackendCall → ExecResult
  | BackendCall.payinvoice _ => ⟨"no funds", some "exit status 1"⟩
  | c => scriptOk c

/-- The `lookupinvoice` call fails, the others succeed. -/
def scriptLookupFails : BackendCall → ExecResult
  | BackendCall.lookupinvoice _ => ⟨"timeout", some "exit status 1"⟩
  | c => scriptOk c

/-- The `lookupinvoice` call answers with a state other than `SETTLED`, the
other calls succeed. -/
def scriptLookupOpen : BackendCall → ExecResult
  | BackendCall.lookupinvoice _ => ⟨"lookup-open", none⟩
  | c => scriptOk c

/-- The `lookupinvoice` call answers with text that is not JSON, the other
calls succeed. -/
def scriptLookupGarbled : BackendCall → ExecResult
  | BackendCall.lookupinvoice _ => ⟨"<html>", none⟩
  | c => scriptOk c

/-- The `closechannel` call fails, the others succeed (the lookup reports
`SETTLED`). -/
def scriptCloseFails : BackendCall → ExecResult
  | BackendCall.closechannel _ => ⟨"channel busy", some "exit status 1"⟩
  | c => scriptOk c

/-- A fresh host: empty logs, nothing consumed. -/
def emptyWorld : World := ⟨"", "", "", [], [], [], 0, 0, 0⟩

/-- Each of the three logs of `w1` is the same log of `w` with text added at
the end. -/
def LogsExtend (w w1 : World) : Prop :=
  (∃ x, w1.publicLog = w.publicLog ++ x) ∧ (∃ x, w1.privateLog = w.privateLog ++ x) ∧
  (∃ x, w1.sysLog = w.sysLog ++ x)

/-- The file system never fails: every log opens and every `Write` takes the
whole text. -/
def FileSystemOk (env : Env) : Prop :=
  (∀ k t, env.openFile k t = none) ∧ (∀ k t b, b.length ≤ env.write k t b)

/-- The sample environment on a full disk: every `Write` fails without
putting a character on the file. -/
def diskFullEnv (script : BackendCall → ExecResult) : Env :=
  { sampleEnv script with write := fun _ _ _ => 0 }

/-- The sample environment whose log files cannot be opened. -/
def noLogsEnv (script : BackendCall → ExecResult) : Env :=
  { sampleEnv script with openFile := fun _ _ => some "permission denied" }

/-! ## The ledger writer -/

@[simp] theorem world_ok {α : Type} (a : α) (w : World) : (Outcome.ok a w).world = w := rfl

@[simp] theorem world_fatal {α : Type} (w : World) : (Outcome.fatal w : Outcome α).world = w :=
  rfl

theorem log_with (w : World) (sv : List (LogTarget × Entry)) (n : Nat) (t : LogTarget) :
    World.log ⟨w.publicLog, w.privateLog, w.sysLog, w.calls, sv, w.stdout, w.clockReads,
      w.uuids, n⟩ t = w.log t := by
  cases t <;> rfl

theorem fileWrite_log_of_ne (env : Env) (t u : LogTarget) (b : String) (w : World)
    (h : u ≠ t) : (fileWrite env t b w).log u = w.log u := by
  cases t <;> cases u <;> simp_all [fileWrite, World.setLog, World.log]

theorem fileWrite_log_self (env : Env) (t : LogTarget) (b : String) (w : World) :
    (fileWrite env t b w).log t
      = w.log t ++ String.mk (b.toList.take (env.write w.fileOps t b)) := by
  cases t <;> simp [fileWrite, World.setLog, World.log]

theorem fileWrite_fileOps (env : Env) (t : LogTarget) (b : String) (w : World) :
    (fileWrite env t b w).fileOps = w.fileOps + 1 := by
  cases t <;> simp [fileWrite, World.setLog]

theorem fileWrite_rest (env : Env) (t : LogTarget) (b : String) (w : World) :
    (fileWrite env t b w).calls = w.calls ∧ (fileWrite env t b w).saves = w.saves ∧
    (fileWrite env t b w).stdout = w.stdout ∧
    (fileWrite env t b w).clockReads = w.clockReads ∧
    (fileWrite env t b w).uuids = w.uuids := by
  cases t <;> simp [fileWrite, World.setLog]

/-- A write that the file system accepts in full appends the whole text. -/
theorem fileWrite_log_complete (env : Env) (t : LogTarget) (b : String) (w : World)
    (h : b.length ≤ env.write w.fileOps t b) :
    (fileWrite env t b w).log t = w.log t ++ b := by
  rw [fileWrite_log_self]
  have : b.toList.take (env.write w.fileOps t b) = b.toList :=
    List.take_of_length_le (by simpa using h)
  rw [this]
  rfl

/-- What `saveEntryToLog` leaves untouched, and what it records. -/
theorem saveEntryToLog_rest (env : Env) (entry : Entry) (target : LogTarget) (w : World) :
    (saveEntryToLog env entry target w).world.calls = w.calls ∧
    (saveEntryToLog env entry target w).world.saves = w.saves ++ [(target, entry)] ∧
    (saveEntryToLog env entry target w).world.stdout = w.stdout ∧
    (saveEntryToLog env entry target w).world.clockReads = w.clockReads ∧
    (saveEntryToLog env entry target w).world.uuids = w.uuids := by
  unfold saveEntryToLog
  cases hopen : env.openFile w.fileOps target with
  | some e => simp [hopen, Outcome.world]
  | none =>
    cases hm : env.jsonMarshal entry with
    | error e => simp [hopen, hm, Outcome.world]
    | ok js => simp [hopen, hm, Outcome.world, fileWrite_rest]

/-- The call `saveEntryToLog` changes no log but its target. -/
theorem saveEntryToLog_log_of_ne (env : Env) (entry : Entry) (target u : LogTarget)
    (w : World) (h : u ≠ target) :
    (saveEntryToLog env entry target w).world.log u = w.log u := by
  unfold saveEntryToLog
  cases hopen : env.openFile w.fileOps target with
  | some e => cases u <;> simp [hopen, Outcome.world, World.log]
  | none =>
    cases hm : env.jsonMarshal entry with
    | error e => cases u <;> simp [hopen, hm, Outcome.world, World.log]
    | ok js =>
      simp only [hopen, hm, Outcome.world]
      rw [fileWrite_log_of_ne env target u _ _ h, fileWrite_log_of_ne env target u _ _ h]
      cases u <;> simp [World.log]

/-- The call `saveEntryToLog` only adds text at the end of its target. -/
theorem saveEntryToLog_log_self (env : Env) (entry : Entry) (target : LogTarget)
    (w : World) :
    ∃ x, (saveEntryToLog env entry target w).world.log target = w.log target ++ x := by
  unfold saveEntryToLog
  cases hopen : env.openFile w.fileOps target with
  | some e => exact ⟨"", by cases target <;> simp [hopen, Outcome.world, World.log]⟩
  | none =>
    cases hm : env.jsonMarshal entry with
    | error e => exact ⟨"", by cases target <;> simp [hopen, hm, Outcome.world, World.log]⟩
    | ok js =>
      simp only [hopen, hm, Outcome.world]
      rw [fileWrite_log_self, fileWrite_log_self, String.append_assoc, log_with]
      exact ⟨_, rfl⟩

/-- A complete append: the record and the newline reach the target, which
grows by exactly that line, and the other two logs keep their contents. -/
theorem saveEntryToLog_complete (env : Env) (entry : Entry) (target : LogTarget)
    (w : World) (js : String) (h : AppendCompletes env w.fileOps target entry js) :
    ∃ w1, saveEntryToLog env entry target w = Outcome.ok () w1 ∧
      w1.log target = w.log target ++ js ++ "\n" ∧
      ∀ u, u ≠ target → w1.log u = w.log u := by
  obtain ⟨hopen, hm, hw1, hw2⟩ := h
  have hrun : saveEntryToLog env entry target w
      = Outcome.ok () (fileWrite env target "\n" (fileWrite env target js
          ⟨w.publicLog, w.privateLog, w.sysLog, w.calls, w.saves ++ [(target, entry)],
            w.stdout, w.clockReads, w.uuids, w.fileOps + 1⟩)) := by
    unfold saveEntryToLog
    simp only [hopen, hm]
  refine ⟨_, hrun, ?_, ?_⟩
  · rw [fileWrite_log_complete _ _ _ _ (by rw [fileWrite_fileOps]; exact hw2),
      fileWrite_log_complete _ _ _ _ hw1, log_with]
  · intro u hu
    rw [fileWrite_log_of_ne _ _ _ _ _ hu, fileWrite_log_of_ne _ _ _ _ _ hu, log_with]

/-- What `logError` does besides writing to the diagnostic ledger: one clock
reading and one `saveEntryToLog` call, of an error entry on `sysLogFile`. -/
theorem logError_rest (env : Env) (message : String) (w : World) :
    (logError env message w).world.calls = w.calls ∧
    (logError env message w).world.saves
      = w.saves ++ [(LogTarget.sysLogFile, errorEntry (env.now w.clockReads) message)] ∧
    (logError env message w).world.stdout = w.stdout ∧
    (logError env message w).world.clockReads = w.clockReads + 1 ∧
    (logError env message w).world.uuids = w.uuids ∧
    (logError env message w).world.publicLog = w.publicLog ∧
    (logError env message w).world.privateLog = w.privateLog := by
  unfold logError timeNowUnix
  obtain ⟨h1, h2, h3, h4, h5⟩ := saveEntryToLog_rest env
    (errorEntry (env.now w.clockReads) message) LogTarget.sysLogFile
    { w with clockReads := w.clockReads + 1 }
  have h6 := saveEntryToLog_log_of_ne env (errorEntry (env.now w.clockReads) message)
    LogTarget.sysLogFile LogTarget.logFile { w with clockReads := w.clockReads + 1 }
    (by decide)
  have h7 := saveEntryToLog_log_of_ne env (errorEntry (env.now w.clockReads) message)
    LogTarget.sysLogFile LogTarget.privateLogFile { w with clockReads := w.clockReads + 1 }
    (by decide)
  exact ⟨h1, h2, h3, h4, h5, h6, h7⟩

/-- The diagnostic ledger after `logError`, when the append completes. -/
theorem logError_sysLog (env : Env) (message : String) (w : World) (js : String)
    (h : AppendCompletes env w.fileOps LogTarget.sysLogFile
      (errorEntry (env.now w.clockReads) message) js) :
    (logError env message w).isFatal = false ∧
    (logError env message w).world.sysLog = w.sysLog ++ js ++ "\n" := by
  unfold logError timeNowUnix
  obtain ⟨w1, h1, h2, -⟩ := saveEntryToLog_complete env
    (errorEntry (env.now w.clockReads) message) LogTarget.sysLogFile
    { w with clockReads := w.clockReads + 1 } js h
  simp only [errorEntry] at h1 ⊢
  rw [h1]
  exact ⟨rfl, h2⟩

/-- The facts about `saveEntryToLog`, for a named outcome. -/
theorem saveEntryToLog_outcome (env : Env) (entry : Entry) (target : LogTarget) (w : World)
    (o : Outcome Unit) (h : saveEntryToLog env entry target w = o) :
    o.world.calls = w.calls ∧ o.world.saves = w.saves ++ [(target, entry)] ∧
    o.world.stdout = w.stdout ∧ o.world.clockReads = w.clockReads ∧
    o.world.uuids = w.uuids ∧ (∀ u, u ≠ target → o.world.log u = w.log u) ∧
    (∃ x, o.world.log target = w.log target ++ x) := by
  subst h
  obtain ⟨h1, h2, h3, h4, h5⟩ := saveEntryToLog_rest env entry target w
  exact ⟨h1, h2, h3, h4, h5, fun u hu => saveEntryToLog_log_of_ne env entry target u w hu,
    saveEntryToLog_log_self env entry target w⟩

/-- A complete append, for a named outcome. -/
theorem saveEntryToLog_outcome_complete (env : Env) (entry : Entry) (target : LogTarget)
    (w : World) (o : Outcome Unit) (js : String)
    (h : saveEntryToLog env entry target w = o)
    (hc : AppendCompletes env w.fileOps target entry js) :
    o.isFatal = false ∧ o.world.log target = w.log target ++ js ++ "\n" ∧
    ∀ u, u ≠ target → o.world.log u = w.log u := by
  subst h
  obtain ⟨w1, h1, h2, h3⟩ := saveEntryToLog_complete env entry target w js hc
  rw [h1]
  exact ⟨rfl, h2, h3⟩

/-! ## Wallet balance -/

/-- What `logWalletBalance` does: one `walletbalance` call, then one entry for
the writer, an `error` entry for the diagnostic ledger or a `wallet-balance`
entry for the private ledger; the public ledger is not touched and the
private ledger only grows. -/
theorem logWalletBalance_rest (env : Env) (w : World) :
    (logWalletBalance env w).world.calls = w.calls ++ [BackendCall.walletbalance] ∧
    ((∃ t message, (logWalletBalance env w).world.saves
        = w.saves ++ [(LogTarget.sysLogFile, errorEntry t message)]) ∨
     (∃ balance t, (logWalletBalance env w).world.saves
        = w.saves ++ [(LogTarget.privateLogFile, walletBalanceEntry balance t)])) ∧
    (logWalletBalance env w).world.publicLog = w.publicLog ∧
    (∃ x, (logWalletBalance env w).world.privateLog = w.privateLog ++ x) ∧
    (logWalletBalance env w).world.stdout = w.stdout := by
  cases herr : (env.exec w.calls BackendCall.walletbalance).err with
  | some e =>
    obtain ⟨h1, h2, h3, -, -, h6, h7⟩ := logError_rest env
      ("Failed to fetch wallet balance: " ++ e)
      { w with calls := w.calls ++ [BackendCall.walletbalance] }
    cases hlog : logError env ("Failed to fetch wallet balance: " ++ e)
      { w with calls := w.calls ++ [BackendCall.walletbalance] } with
    | ok a w2 =>
      rw [hlog] at h1 h2 h3 h6 h7
      simp only [logWalletBalance, execCommand, herr, hlog]
      exact ⟨h1, Or.inl ⟨_, _, h2⟩, h6, ⟨"", by simpa [Outcome.world] using h7⟩, h3⟩
    | fatal w2 =>
      rw [hlog] at h1 h2 h3 h6 h7
      simp only [logWalletBalance, execCommand, herr, hlog]
      exact ⟨h1, Or.inl ⟨_, _, h2⟩, h6, ⟨"", by simpa [Outcome.world] using h7⟩, h3⟩
  | none =>
    obtain ⟨h1, h2, h3, -, -⟩ := saveEntryToLog_rest env
      (walletBalanceEntry (env.exec w.calls BackendCall.walletbalance).out
        (env.now w.clockReads))
      LogTarget.privateLogFile
      { w with calls := w.calls ++ [BackendCall.walletbalance],
               clockReads := w.clockReads + 1 }
    have h4 := saveEntryToLog_log_of_ne env
      (walletBalanceEntry (env.exec w.calls BackendCall.walletbalance).out
        (env.now w.clockReads))
      LogTarget.privateLogFile LogTarget.logFile
      { w with calls := w.calls ++ [BackendCall.walletbalance],
               clockReads := w.clockReads + 1 } (by decide)
    obtain ⟨x, h5⟩ := saveEntryToLog_log_self env
      (walletBalanceEntry (env.exec w.calls BackendCall.walletbalance).out
        (env.now w.clockReads))
      LogTarget.privateLogFile
      { w with calls := w.calls ++ [BackendCall.walletbalance],
               clockReads := w.clockReads + 1 }
    simp only [walletBalanceEntry] at h1 h2 h3 h4 h5
    cases hsave : saveEntryToLog env
      [("type", EntryVal.str "wallet-balance"),
       ("data", EntryVal.str (env.exec w.calls BackendCall.walletbalance).out),
       ("timestamp", EntryVal.int (env.now w.clockReads))]
      LogTarget.privateLogFile
      { w with calls := w.calls ++ [BackendCall.walletbalance],
               clockReads := w.clockReads + 1 } with
    | ok a w2 =>
      rw [hsave] at h1 h2 h3 h4 h5
      simp only [logWalletBalance, execCommand, timeNowUnix, herr, hsave]
      exact ⟨h1, Or.inr ⟨_, _, h2⟩, h4, ⟨x, h5⟩, h3⟩
    | fatal w2 =>
      rw [hsave] at h1 h2 h3 h4 h5
      simp only [logWalletBalance, execCommand, timeNowUnix, herr, hsave]
      exact ⟨h1, Or.inr ⟨_, _, h2⟩, h4, ⟨x, h5⟩, h3⟩

/-- The facts about `logWalletBalance`, for a named outcome. -/
theorem logWalletBalance_outcome (env : Env) (w : World) (o : Outcome String)
    (h : logWalletBalance env w = o) :
    o.world.calls = w.calls ++ [BackendCall.walletbalance] ∧
    ((∃ t message, o.world.saves = w.saves ++ [(LogTarget.sysLogFile, errorEntry t message)]) ∨
     (∃ balance t, o.world.saves
        = w.saves ++ [(LogTarget.privateLogFile, walletBalanceEntry balance t)])) ∧
    o.world.publicLog = w.publicLog ∧
    (∃ x, o.world.privateLog = w.privateLog ++ x) ∧
    o.world.stdout = w.stdout := by
  subst h
  exact logWalletBalance_rest env w

/-! ## Identity resolution -/

/-- A failed identity query: `getPublicKey` makes the one `getinfo` call and
returns an error. -/
theorem getPublicKey_fails (env : Env) (command : String) (w : World)
    (h : IdentityFails env w.calls) :
    ∃ message, getPublicKey env command w
      = (Except.error message, { w with calls := w.calls ++ [BackendCall.getinfo] }) := by
  rcases h with h | ⟨e, h⟩ | ⟨m, h, hm⟩
  · obtain ⟨e, he⟩ := Option.ne_none_iff_exists'.mp h
    exact ⟨_, by simp only [getPublicKey, execCommand, he]; rfl⟩
  · cases herr : (env.exec w.calls BackendCall.getinfo).err with
    | some e1 => exact ⟨_, by simp only [getPublicKey, execCommand, herr]; rfl⟩
    | none => exact ⟨_, by simp only [getPublicKey, execCommand, herr, h]; rfl⟩
  · cases herr : (env.exec w.calls BackendCall.getinfo).err with
    | some e1 => exact ⟨_, by simp only [getPublicKey, execCommand, herr]; rfl⟩
    | none => exact ⟨_, by simp only [getPublicKey, execCommand, herr, h, hm]; rfl⟩

/-- A successful identity query: `getPublicKey` makes the one `getinfo` call
and returns the key. -/
theorem getPublicKey_resolves (env : Env) (command : String) (w : World) (k : String)
    (h : IdentityResolves env w.calls k) :
    getPublicKey env command w
      = (Except.ok k, { w with calls := w.calls ++ [BackendCall.getinfo] }) := by
  obtain ⟨herr, m, hm, hk⟩ := h
  simp only [getPublicKey, execCommand, herr, hm, hk]

/-! ## Commands that write one entry to the public ledger -/

/-- The statement `fmt.Println(toJSON(data))` changes the standard output only. -/
theorem printlnJSON_outcome (env : Env) (data : EntryVal) (w : World) (o : Outcome Unit)
    (h : printlnJSON env data w = o) : ∃ out, o.world = { w with stdout := out } := by
  subst h
  unfold printlnJSON toJSON
  cases env.jsonMarshalIndent data with
  | error e => exact ⟨w.stdout, rfl⟩
  | ok text => exact ⟨w.stdout ++ [text ++ "\n"], rfl⟩

/-- The facts about `saveDataToLog`, for a named outcome. -/
theorem saveDataToLog_outcome (env : Env) (data : EntryVal) (eventType : String)
    (target : LogTarget) (w : World) (o : Outcome Unit)
    (h : saveDataToLog env data eventType target w = o) :
    o.world.calls = w.calls ∧
    o.world.saves = w.saves ++ [(target, dataEntry eventType (env.now w.clockReads) data)] ∧
    o.world.stdout = w.stdout ∧
    (∀ u, u ≠ target → o.world.log u = w.log u) ∧
    (∃ x, o.world.log target = w.log target ++ x) ∧
    ∀ js, AppendCompletes env w.fileOps target
        (dataEntry eventType (env.now w.clockReads) data) js →
      o.isFatal = false ∧ o.world.log target = w.log target ++ js ++ "\n" := by
  simp only [saveDataToLog, timeNowUnix] at h
  obtain ⟨h1, h2, h3, -, -, h6, h7⟩ := saveEntryToLog_outcome _ _ _ _ _ h
  refine ⟨h1, h2, h3, fun u hu => ?_, ?_, fun js hjs => ?_⟩
  · rw [h6 u hu]; cases u <;> rfl
  · obtain ⟨x, hx⟩ := h7
    exact ⟨x, by rw [hx]; cases target <;> rfl⟩
  · obtain ⟨hf, hl, -⟩ := saveEntryToLog_outcome_complete _ _ _ _ _ js h hjs
    exact ⟨hf, by rw [hl]; cases target <;> rfl⟩

/-- The facts about `saveDataToLogWithMetadata`, for a named outcome. -/
theorem saveDataToLogWithMetadata_outcome (env : Env) (data : EntryVal) (eventType : String)
    (metadata : GoMap) (target : LogTarget) (w : World) (o : Outcome Unit)
    (h : saveDataToLogWithMetadata env data eventType metadata target w = o) :
    o.world.calls = w.calls ∧
    o.world.saves = w.saves
      ++ [(target, dataEntryWithMetadata eventType (env.now w.clockReads) data metadata)] ∧
    o.world.stdout = w.stdout ∧
    (∀ u, u ≠ target → o.world.log u = w.log u) ∧
    (∃ x, o.world.log target = w.log target ++ x) ∧
    ∀ js, AppendCompletes env w.fileOps target
        (dataEntryWithMetadata eventType (env.now w.clockReads) data metadata) js →
      o.isFatal = false ∧ o.world.log target = w.log target ++ js ++ "\n" := by
  simp only [saveDataToLogWithMetadata, timeNowUnix] at h
  obtain ⟨h1, h2, h3, -, -, h6, h7⟩ := saveEntryToLog_outcome _ _ _ _ _ h
  refine ⟨h1, h2, h3, fun u hu => ?_, ?_, fun js hjs => ?_⟩
  · rw [h6 u hu]; cases u <;> rfl
  · obtain ⟨x, hx⟩ := h7
    exact ⟨x, by rw [hx]; cases target <;> rfl⟩
  · obtain ⟨hf, hl, -⟩ := saveEntryToLog_outcome_complete _ _ _ _ _ js h hjs
    exact ⟨hf, by rw [hl]; cases target <;> rfl⟩

/-- Saving a record on the public ledger and printing it: the step shared by
`open-auction`, `place-bid` and `add-issue`. -/
theorem saveData_then_print (env : Env) (data : EntryVal) (eventType : String) (w : World)
    (o : Outcome Unit)
    (h : (match saveDataToLog env data eventType LogTarget.logFile w with
          | Outcome.fatal w1 => Outcome.fatal w1
          | Outcome.ok _ w1 => printlnJSON env data w1) = o) :
    o.world.calls = w.calls ∧
    o.world.saves
      = w.saves ++ [(LogTarget.logFile, dataEntry eventType (env.now w.clockReads) data)] ∧
    o.world.privateLog = w.privateLog ∧ o.world.sysLog = w.sysLog ∧
    (∃ x, o.world.publicLog = w.publicLog ++ x) ∧
    ∀ js, AppendCompletes env w.fileOps LogTarget.logFile
        (dataEntry eventType (env.now w.clockReads) data) js →
      o.world.publicLog = w.publicLog ++ js ++ "\n" := by
  subst h
  split
  · rename_i w1 hsave
    obtain ⟨h1, h2, -, h4, h5, h6⟩ := saveDataToLog_outcome _ _ _ _ _ _ hsave
    refine ⟨h1, h2, h4 LogTarget.privateLogFile (by decide),
      h4 LogTarget.sysLogFile (by decide), h5, fun js hjs => (h6 js hjs).2⟩
  · rename_i u w1 hsave
    obtain ⟨h1, h2, -, h4, h5, h6⟩ := saveDataToLog_outcome _ _ _ _ _ _ hsave
    obtain ⟨out, hout⟩ := printlnJSON_outcome env data w1 _ rfl
    rw [hout]
    refine ⟨h1, h2, h4 LogTarget.privateLogFile (by decide),
      h4 LogTarget.sysLogFile (by decide), h5, fun js hjs => (h6 js hjs).2⟩

/-- Saving a record with metadata on the public ledger and printing it: the
last step of `add-invoice`. -/
theorem saveDataWithMetadata_then_print (env : Env) (data : EntryVal) (eventType : String)
    (metadata : GoMap) (w : World) (o : Outcome Unit)
    (h : (match saveDataToLogWithMetadata env data eventType metadata LogTarget.logFile w with
          | Outcome.fatal w1 => Outcome.fatal w1
          | Outcome.ok _ w1 => printlnJSON env data w1) = o) :
    o.world.saves = w.saves
      ++ [(LogTarget.logFile,
            dataEntryWithMetadata eventType (env.now w.clockReads) data metadata)] ∧
    o.world.privateLog = w.privateLog ∧ o.world.sysLog = w.sysLog ∧
    ∀ js, AppendCompletes env w.fileOps LogTarget.logFile
        (dataEntryWithMetadata eventType (env.now w.clockReads) data metadata) js →
      o.world.publicLog = w.publicLog ++ js ++ "\n" := by
  subst h
  split
  · rename_i w1 hsave
    obtain ⟨-, h2, -, h4, -, h6⟩ := saveDataToLogWithMetadata_outcome _ _ _ _ _ _ _ hsave
    exact ⟨h2, h4 LogTarget.privateLogFile (by decide), h4 LogTarget.sysLogFile (by decide),
      fun js hjs => (h6 js hjs).2⟩
  · rename_i u w1 hsave
    obtain ⟨-, h2, -, h4, -, h6⟩ := saveDataToLogWithMetadata_outcome _ _ _ _ _ _ _ hsave
    obtain ⟨out, hout⟩ := printlnJSON_outcome env data w1 _ rfl
    rw [hout]
    exact ⟨h2, h4 LogTarget.privateLogFile (by decide), h4 LogTarget.sysLogFile (by decide),
      fun js hjs => (h6 js hjs).2⟩

/-- Saving an entry on the public ledger and printing a message: the last
step of `close-auction`, `announce-winner` and `resolve-issue`. -/
theorem saveEntry_then_report (env : Env) (entry : Entry) (text : String) (w : World)
    (o : Outcome Unit)
    (h : (match saveEntryToLog env entry LogTarget.logFile w with
          | Outcome.fatal w1 => Outcome.fatal w1
          | Outcome.ok _ w1 => Outcome.ok () (printOut text w1)) = o) :
    o.world.saves = w.saves ++ [(LogTarget.logFile, entry)] ∧
    o.world.privateLog = w.privateLog ∧ o.world.sysLog = w.sysLog ∧
    ∀ js, AppendCompletes env w.fileOps LogTarget.logFile entry js →
      o.world.publicLog = w.publicLog ++ js ++ "\n" := by
  subst h
  split
  · rename_i w1 hsave
    obtain ⟨-, h2, -, -, -, h6, -⟩ := saveEntryToLog_outcome _ _ _ _ _ hsave
    exact ⟨h2, h6 LogTarget.privateLogFile (by decide), h6 LogTarget.sysLogFile (by decide),
      fun js hjs => (saveEntryToLog_outcome_complete _ _ _ _ _ js hsave hjs).2.1⟩
  · rename_i u w1 hsave
    obtain ⟨-, h2, -, -, -, h6, -⟩ := saveEntryToLog_outcome _ _ _ _ _ hsave
    exact ⟨h2, h6 LogTarget.privateLogFile (by decide), h6 LogTarget.sysLogFile (by decide),
      fun js hjs => (saveEntryToLog_outcome_complete _ _ _ _ _ js hsave hjs).2.1⟩

/-- The effect of `open-auction` when identity resolution succeeds. -/
theorem openAuction_effect (env : Env) (auctionID issueID issue : String)
    (startingPrice : Float64) (openTime closeTime : Int) (metadata : String) (w : World)
    (k : String) (hid : IdentityResolves env w.calls k) :
    let entry : Entry :=
      dataEntry "auction-opened" (env.now (w.clockReads + 1))
        (EntryVal.auction
          { UUID := env.newUUID w.uuids
            AuctionID := auctionID
            IssueID := issueID
            Issue := issue
            StartingPrice := startingPrice
            OpenTime := openTime
            CloseTime := closeTime
            AnnouncementTime := env.now w.clockReads
            Metadata := metadata
            State := "Open"
            Timestamp := env.now w.clockReads
            AuctioneerPubKey := k })
    (openAuctionCmd env auctionID issueID issue startingPrice openTime closeTime metadata
        w).world.saves = w.saves ++ [(LogTarget.logFile, entry)] ∧
    (openAuctionCmd env auctionID issueID issue startingPrice openTime closeTime metadata
        w).world.privateLog = w.privateLog ∧
    (openAuctionCmd env auctionID issueID issue startingPrice openTime closeTime metadata
        w).world.sysLog = w.sysLog ∧
    ∀ js, AppendCompletes env w.fileOps LogTarget.logFile entry js →
      (openAuctionCmd env auctionID issueID issue startingPrice openTime closeTime metadata
        w).world.publicLog = w.publicLog ++ js ++ "\n" := by
  intro entry
  have hget := getPublicKey_resolves env "open-auction"
    { w with clockReads := w.clockReads + 1 } k hid
  obtain ⟨-, h2, h3, h4, -, h6⟩ := saveData_then_print env _ _ _
    (openAuctionCmd env auctionID issueID issue startingPrice openTime closeTime metadata w)
    (by simp only [openAuctionCmd, timeNowUnix, hget, uuidNewString]; rfl)
  exact ⟨h2, h3, h4, h6⟩

/-- The effect of `place-bid` when identity resolution succeeds. -/
theorem placeBid_effect (env : Env) (auctionID bidderID : String) (bidAmount : Float64)
    (metadata : String) (w : World) (k : String) (hid : IdentityResolves env w.calls k) :
    let entry : Entry :=
      dataEntry "bid-placed" (env.now (w.clockReads + 1))
        (EntryVal.bid
          { UUID := env.newUUID w.uuids
            AuctionID := auctionID
            BidderID := bidderID
            Amount := bidAmount
            Metadata := metadata
            State := "Placed"
            Timestamp := env.now w.clockReads
            BidderPubKey := k })
    (placeBidCmd env auctionID bidderID bidAmount metadata w).world.saves
      = w.saves ++ [(LogTarget.logFile, entry)] ∧
    (placeBidCmd env auctionID bidderID bidAmount metadata w).world.privateLog
      = w.privateLog ∧
    (placeBidCmd env auctionID bidderID bidAmount metadata w).world.sysLog = w.sysLog ∧
    ∀ js, AppendCompletes env w.fileOps LogTarget.logFile entry js →
      (placeBidCmd env auctionID bidderID bidAmount metadata w).world.publicLog
        = w.publicLog ++ js ++ "\n" := by
  intro entry
  have hget := getPublicKey_resolves env "place-bid" w k hid
  obtain ⟨-, h2, h3, h4, -, h6⟩ := saveData_then_print env _ _ _
    (placeBidCmd env auctionID bidderID bidAmount metadata w)
    (by simp only [placeBidCmd, timeNowUnix, hget, uuidNewString]; rfl)
  exact ⟨h2, h3, h4, h6⟩

/-- The effect of `close-auction` when identity resolution succeeds. -/
theorem closeAuction_effect (env : Env) (auctionID : String) (w : World) (k : String)
    (hid : IdentityResolves env w.calls k) :
    let entry : Entry :=
      [("type", EntryVal.str "auction-closed"), ("auction_id", EntryVal.str auctionID),
       ("auctioneer_pubkey", EntryVal.str k),
       ("timestamp", EntryVal.int (env.now w.clockReads))]
    (closeAuctionCmd env auctionID w).world.saves = w.saves ++ [(LogTarget.logFile, entry)] ∧
    (closeAuctionCmd env auctionID w).world.privateLog = w.privateLog ∧
    (closeAuctionCmd env auctionID w).world.sysLog = w.sysLog ∧
    ∀ js, AppendCompletes env w.fileOps LogTarget.logFile entry js →
      (closeAuctionCmd env auctionID w).world.publicLog = w.publicLog ++ js ++ "\n" := by
  intro entry
  have hget := getPublicKey_resolves env "close-auction" w k hid
  obtain ⟨h2, h3, h4, h6⟩ := saveEntry_then_report env _ _ _ (closeAuctionCmd env auctionID w)
    (by simp only [closeAuctionCmd, timeNowUnix, hget]; rfl)
  exact ⟨h2, h3, h4, h6⟩

/-- The effect of `announce-winner` when identity resolution succeeds. -/
theorem announceWinner_effect (env : Env) (auctionID bidderID : String) (w : World)
    (k : String) (hid : IdentityResolves env w.calls k) :
    let entry : Entry :=
      [("type", EntryVal.str "winner-announced"), ("auction_id", EntryVal.str auctionID),
       ("bidder_id", EntryVal.str bidderID), ("auctioneer_pubkey", EntryVal.str k),
       ("timestamp", EntryVal.int (env.now w.clockReads))]
    (announceWinnerCmd env auctionID bidderID w).world.saves
      = w.saves ++ [(LogTarget.logFile, entry)] ∧
    (announceWinnerCmd env auctionID bidderID w).world.privateLog = w.privateLog ∧
    (announceWinnerCmd env auctionID bidderID w).world.sysLog = w.sysLog ∧
    ∀ js, AppendCompletes env w.fileOps LogTarget.logFile entry js →
      (announceWinnerCmd env auctionID bidderID w).world.publicLog
        = w.publicLog ++ js ++ "\n" := by
  intro entry
  have hget := getPublicKey_resolves env "announce-winner" w k hid
  obtain ⟨h2, h3, h4, h6⟩ := saveEntry_then_report env _ _ _
    (announceWinnerCmd env auctionID bidderID w)
    (by simp only [announceWinnerCmd, timeNowUnix, hget]; rfl)
  exact ⟨h2, h3, h4, h6⟩

/-- The effect of `add-issue`. -/
theorem addIssue_effect (env : Env) (issueID issueDescription : String)
    (estimatedCost : Float64) (metadata : String) (w : World) :
    (addIssueCmd env issueID issueDescription estimatedCost metadata w).world.saves
      = w.saves ++ [(LogTarget.logFile,
          dataEntry "issue-created" (env.now (w.clockReads + 1))
            (EntryVal.issue
              { UUID := env.newUUID w.uuids
                IssueID := issueID
                IssueDescription := issueDescription
                EstimatedCost := estimatedCost
                Metadata := metadata
                Timestamp := env.now w.clockReads
                State := "Open" }))] := by
  obtain ⟨-, h2, -⟩ := saveData_then_print env _ _ _
    (addIssueCmd env issueID issueDescription estimatedCost metadata w)
    (by simp only [addIssueCmd, timeNowUnix, uuidNewString]; rfl)
  exact h2

/-- The effect of `add-invoice` when the `addinvoice` call succeeds and its
output decodes. -/
theorem addInvoice_effect (env : Env) (auctionID : String) (amountFloat : Float64)
    (memo : String) (w : World) (lncliResult : GoMap)
    (hcall : (env.exec w.calls
      (BackendCall.addinvoice (toString (env.toMilli amountFloat)))).err = none)
    (hparse : env.jsonUnmarshal (env.exec w.calls
      (BackendCall.addinvoice (toString (env.toMilli amountFloat)))).out
      = Except.ok lncliResult) :
    (addInvoiceCmd env auctionID amountFloat memo w).world.saves
      = w.saves ++ [(LogTarget.logFile,
          dataEntryWithMetadata "invoice-created" (env.now (w.clockReads + 1))
            (EntryVal.invoice
              { UUID := env.newUUID (w.uuids + 1)
                InvoiceID := "invoice-" ++ auctionID ++ "-" ++ env.newUUID w.uuids
                AuctionID := auctionID
                Amount := env.toMilli amountFloat
                Memo := memo
                State := "Created"
                Timestamp := env.now w.clockReads })
            lncliResult)] := by
  obtain ⟨h2, -⟩ := saveDataWithMetadata_then_print env _ _ _ _
    (addInvoiceCmd env auctionID amountFloat memo w)
    (by simp only [addInvoiceCmd, execCommand, hcall, hparse, timeNowUnix, uuidNewString]; rfl)
  exact h2

/-- An entry without a NaN or infinite float is marshalled, so its append
completes as soon as the file operations succeed. -/
theorem appendCompletes_of_writes (env : Env) (k : Nat) (target : LogTarget) (entry : Entry)
    (hm : entry.all (fun kv => kv.2.marshalable) = true)
    (h : WritesComplete env k target (env.encode entry)) :
    AppendCompletes env k target entry (env.encode entry) :=
  ⟨h.1, by simp only [Env.jsonMarshal, hm, if_true], h.2.1, h.2.2⟩

/-- An entry built by `saveDataToLog` is marshalled when its record is. -/
theorem dataEntry_marshalable (eventType : String) (t : Int) (data : EntryVal)
    (h : data.marshalable = true) :
    (dataEntry eventType t data).all (fun kv => kv.2.marshalable) = true := by
  simp only [dataEntry, List.all_cons, List.all_nil, h, Bool.and_true]
  rfl

/-- On a file system that never fails the file operations of every append
succeed. -/
theorem writesComplete_of_ok (env : Env) (hfs : FileSystemOk env) (k : Nat)
    (target : LogTarget) (js : String) : WritesComplete env k target js :=
  ⟨hfs.1 k target, hfs.2 _ _ _, hfs.2 (k + 2) target "\n"⟩

/-- The effect of `pay-invoice` when the four settlement calls succeed and the
lookup output decodes. -/
theorem payInvoice_effect (env : Env) (paymentRequest bidderPubKey : String)
    (w : World) (lookupResult : GoMap)
    (hopen : (env.exec w.calls (BackendCall.openchannel bidderPubKey channelCapacity)).err
      = none)
    (hpay : (env.exec (w.calls ++ [BackendCall.openchannel bidderPubKey channelCapacity])
      (BackendCall.payinvoice paymentRequest)).err = none)
    (hlook : (env.exec (w.calls ++ [BackendCall.openchannel bidderPubKey channelCapacity]
      ++ [BackendCall.payinvoice paymentRequest])
      (BackendCall.lookupinvoice paymentRequest)).err = none)
    (hparse : env.jsonUnmarshal
      (env.exec (w.calls ++ [BackendCall.openchannel bidderPubKey channelCapacity]
        ++ [BackendCall.payinvoice paymentRequest])
        (BackendCall.lookupinvoice paymentRequest)).out = Except.ok lookupResult)
    (hclose : (env.exec (w.calls ++ [BackendCall.openchannel bidderPubKey channelCapacity]
      ++ [BackendCall.payinvoice paymentRequest] ++ [BackendCall.lookupinvoice paymentRequest])
      (BackendCall.closechannel bidderPubKey)).err = none) :
    (((payInvoiceCmd env paymentRequest bidderPubKey w).world.saves).drop w.saves.length).filter
        (fun p => decide (entryType p.2 = some "invoice-paid"))
      = [(LogTarget.privateLogFile,
          invoicePaidEntry paymentRequest
            (env.exec (w.calls ++ [BackendCall.openchannel bidderPubKey channelCapacity])
              (BackendCall.payinvoice paymentRequest)).out
            (env.now w.clockReads))] ∧
    (payInvoiceCmd env paymentRequest bidderPubKey w).world.publicLog = w.publicLog ∧
    ∀ js, AppendCompletes env w.fileOps LogTarget.privateLogFile
        (invoicePaidEntry paymentRequest
          (env.exec (w.calls ++ [BackendCall.openchannel bidderPubKey channelCapacity])
            (BackendCall.payinvoice paymentRequest)).out
          (env.now w.clockReads)) js →
      ∃ x, (payInvoiceCmd env paymentRequest bidderPubKey w).world.privateLog
        = w.privateLog ++ js ++ "\n" ++ x := by
  simp only [payInvoiceCmd, execCommand, hopen, hpay, hlook, hparse, hclose, timeNowUnix,
    printOut]
  split
  · rename_i w7 hsave
    obtain ⟨-, h2, -, -, -, h6, h7⟩ := saveEntryToLog_outcome _ _ _ _ _ hsave
    refine ⟨?_, by simpa [World.log, Outcome.world] using h6 LogTarget.logFile (by decide), ?_⟩
    · rw [h2]
      simp [entryType, invoicePaidEntry]
    · intro js hjs
      obtain ⟨hf, -, -⟩ := saveEntryToLog_outcome_complete _ _ _ _ _ js hsave
        (by simpa [invoicePaidEntry] using hjs)
      simp [Outcome.isFatal] at hf
  · rename_i u w7 hsave
    obtain ⟨-, h2, -, -, -, h6, -⟩ := saveEntryToLog_outcome _ _ _ _ _ hsave
    have hpub : w7.publicLog = w.publicLog := by
      simpa [World.log] using h6 LogTarget.logFile (by decide)
    have hpriv : ∀ js, AppendCompletes env w.fileOps LogTarget.privateLogFile
        (invoicePaidEntry paymentRequest
          (env.exec (w.calls ++ [BackendCall.openchannel bidderPubKey channelCapacity])
            (BackendCall.payinvoice paymentRequest)).out
          (env.now w.clockReads)) js → w7.privateLog = w.privateLog ++ js ++ "\n" := by
      intro js hjs
      obtain ⟨-, hw2, -⟩ := saveEntryToLog_outcome_complete _ _ _ _ _ js hsave
        (by simpa [invoicePaidEntry] using hjs)
      simpa [World.log] using hw2
    simp only [world_ok] at h2
    have hfinal : ∀ o : Outcome String, logWalletBalance env w7 = o →
        ((o.world.saves).drop w.saves.length).filter
            (fun p => decide (entryType p.2 = some "invoice-paid"))
          = [(LogTarget.privateLogFile,
              invoicePaidEntry paymentRequest
                (env.exec (w.calls ++ [BackendCall.openchannel bidderPubKey channelCapacity])
                  (BackendCall.payinvoice paymentRequest)).out
                (env.now w.clockReads))] ∧
        o.world.publicLog = w.publicLog ∧
        ∀ js, AppendCompletes env w.fileOps LogTarget.privateLogFile
            (invoicePaidEntry paymentRequest
              (env.exec (w.calls ++ [BackendCall.openchannel bidderPubKey channelCapacity])
                (BackendCall.payinvoice paymentRequest)).out
              (env.now w.clockReads)) js →
          ∃ x, o.world.privateLog = w.privateLog ++ js ++ "\n" ++ x := by
      intro o hbal
      obtain ⟨-, hb2, hb3, ⟨x, hb4⟩, -⟩ := logWalletBalance_outcome _ _ _ hbal
      refine ⟨?_, hb3.trans hpub, fun js hjs => ⟨x, by rw [hb4, hpriv js hjs]⟩⟩
      rcases hb2 with ⟨t, message, hb⟩ | ⟨balance, t, hb⟩
      · rw [hb, h2]
        simp [entryType, invoicePaidEntry, errorEntry]
      · rw [hb, h2]
        simp [entryType, invoicePaidEntry, walletBalanceEntry]
    split
    · rename_i w8 hbal
      exact hfinal _ hbal
    · rename_i b w8 hbal
      exact hfinal _ hbal

/-- The effect of the four identity-stamped commands when identity resolution
fails. -/
theorem identity_failure_effect (env : Env) (c : Command) (w : World)
    (hc : c.resolvesIdentity = true) (hfail : IdentityFails env w.calls) :
    (c.run env w).world.publicLog = w.publicLog ∧
    (c.run env w).world.privateLog = w.privateLog ∧
    (c.run env w).world.stdout = w.stdout ∧
    ∃ t message,
      (c.run env w).world.saves = w.saves ++ [(LogTarget.sysLogFile, errorEntry t message)] ∧
      ∀ js, AppendCompletes env w.fileOps LogTarget.sysLogFile (errorEntry t message) js →
        (c.run env w).isFatal = false ∧
        (c.run env w).world.sysLog = w.sysLog ++ js ++ "\n" := by
  cases c with
  | openAuction a i d p o cl m =>
    obtain ⟨msg, hget⟩ := getPublicKey_fails env "open-auction"
      { w with clockReads := w.clockReads + 1 } hfail
    simp only [Command.run, openAuctionCmd, timeNowUnix, hget]
    obtain ⟨-, h2, h3, -, -, h6, h7⟩ := logError_rest env
      ("Failed to retrieve auctioneer public key for open-auction: " ++ msg)
      { w with clockReads := w.clockReads + 1, calls := w.calls ++ [BackendCall.getinfo] }
    exact ⟨h6, h7, h3, _, _, h2, fun js hjs => logError_sysLog env _ _ js hjs⟩
  | closeAuction a =>
    obtain ⟨msg, hget⟩ := getPublicKey_fails env "close-auction" w hfail
    simp only [Command.run, closeAuctionCmd, hget]
    obtain ⟨-, h2, h3, -, -, h6, h7⟩ := logError_rest env
      ("Failed to retrieve auctioneer public key for close-auction: " ++ msg)
      { w with calls := w.calls ++ [BackendCall.getinfo] }
    exact ⟨h6, h7, h3, _, _, h2, fun js hjs => logError_sysLog env _ _ js hjs⟩
  | placeBid a b p m =>
    obtain ⟨msg, hget⟩ := getPublicKey_fails env "place-bid" w hfail
    simp only [Command.run, placeBidCmd, hget]
    obtain ⟨-, h2, h3, -, -, h6, h7⟩ := logError_rest env
      ("Failed to retrieve bidder public key for place-bid: " ++ msg)
      { w with calls := w.calls ++ [BackendCall.getinfo] }
    exact ⟨h6, h7, h3, _, _, h2, fun js hjs => logError_sysLog env _ _ js hjs⟩
  | announceWinner a b =>
    obtain ⟨msg, hget⟩ := getPublicKey_fails env "announce-winner" w hfail
    simp only [Command.run, announceWinnerCmd, hget]
    obtain ⟨-, h2, h3, -, -, h6, h7⟩ := logError_rest env
      ("Failed to retrieve auctioneer public key for announce-winner: " ++ msg)
      { w with calls := w.calls ++ [BackendCall.getinfo] }
    exact ⟨h6, h7, h3, _, _, h2, fun js hjs => logError_sysLog env _ _ js hjs⟩
  | addInvoice a p m => simp [Command.resolvesIdentity] at hc
  | payInvoice r k => simp [Command.resolvesIdentity] at hc
  | walletBalance => simp [Command.resolvesIdentity] at hc
  | query q => simp [Command.resolvesIdentity] at hc
  | addIssue i d cst m => simp [Command.resolvesIdentity] at hc
  | resolveIssue i d => simp [Command.resolvesIdentity] at hc

/-! ## The logs only grow -/

theorem LogsExtend.refl (w : World) : LogsExtend w w :=
  ⟨⟨"", by simp⟩, ⟨"", by simp⟩, ⟨"", by simp⟩⟩

theorem LogsExtend.trans {a b c : World} (h1 : LogsExtend a b) (h2 : LogsExtend b c) :
    LogsExtend a c := by
  obtain ⟨⟨x1, hx1⟩, ⟨y1, hy1⟩, ⟨z1, hz1⟩⟩ := h1
  obtain ⟨⟨x2, hx2⟩, ⟨y2, hy2⟩, ⟨z2, hz2⟩⟩ := h2
  exact ⟨⟨x1 ++ x2, by rw [hx2, hx1, String.append_assoc]⟩,
    ⟨y1 ++ y2, by rw [hy2, hy1, String.append_assoc]⟩,
    ⟨z1 ++ z2, by rw [hz2, hz1, String.append_assoc]⟩⟩

/-- Each log of the later world extends the same log of the earlier one. -/
theorem LogsExtend.log {a b : World} (h : LogsExtend a b) (t : LogTarget) :
    ∃ x, b.log t = a.log t ++ x := by
  cases t
  · exact h.1
  · exact h.2.1
  · exact h.2.2

theorem saveEntryToLog_extends (env : Env) (entry : Entry) (target : LogTarget) (w : World) :
    LogsExtend w (saveEntryToLog env entry target w).world := by
  obtain ⟨x, hx⟩ := saveEntryToLog_log_self env entry target w
  have hne := saveEntryToLog_log_of_ne env entry target
  cases target
  · exact ⟨⟨x, hx⟩, ⟨"", by simpa [World.log] using hne LogTarget.privateLogFile w (by decide)⟩,
      ⟨"", by simpa [World.log] using hne LogTarget.sysLogFile w (by decide)⟩⟩
  · exact ⟨⟨"", by simpa [World.log] using hne LogTarget.logFile w (by decide)⟩, ⟨x, hx⟩,
      ⟨"", by simpa [World.log] using hne LogTarget.sysLogFile w (by decide)⟩⟩
  · exact ⟨⟨"", by simpa [World.log] using hne LogTarget.logFile w (by decide)⟩,
      ⟨"", by simpa [World.log] using hne LogTarget.privateLogFile w (by decide)⟩, ⟨x, hx⟩⟩

theorem logError_extends (env : Env) (message : String) (w : World) :
    LogsExtend w (logError env message w).world :=
  saveEntryToLog_extends env _ LogTarget.sysLogFile { w with clockReads := w.clockReads + 1 }

theorem saveDataToLog_extends (env : Env) (data : EntryVal) (eventType : String)
    (target : LogTarget) (w : World) :
    LogsExtend w (saveDataToLog env data eventType target w).world :=
  saveEntryToLog_extends env _ target { w with clockReads := w.clockReads + 1 }

theorem saveDataToLogWithMetadata_extends (env : Env) (data : EntryVal) (eventType : String)
    (metadata : GoMap) (target : LogTarget) (w : World) :
    LogsExtend w (saveDataToLogWithMetadata env data eventType metadata target w).world :=
  saveEntryToLog_extends env _ target { w with clockReads := w.clockReads + 1 }

theorem printlnJSON_extends (env : Env) (data : EntryVal) (w : World) :
    LogsExtend w (printlnJSON env data w).world := by
  obtain ⟨out, hout⟩ := printlnJSON_outcome env data w _ rfl
  rw [hout]
  exact LogsExtend.refl w

theorem getPublicKey_extends (env : Env) (command : String) (w : World) :
    LogsExtend w (getPublicKey env command w).2 := by
  unfold getPublicKey execCommand
  simp only []
  split
  · exact LogsExtend.refl w
  · split
    · exact LogsExtend.refl w
    · split <;> exact LogsExtend.refl w

theorem saveEntryToLog_extends_of {env : Env} {entry : Entry} {target : LogTarget}
    {w : World} {o : Outcome Unit} (h : saveEntryToLog env entry target w = o) :
    LogsExtend w o.world := h ▸ saveEntryToLog_extends env entry target w

theorem logError_extends_of {env : Env} {message : String} {w : World} {o : Outcome Unit}
    (h : logError env message w = o) : LogsExtend w o.world :=
  h ▸ logError_extends env message w

theorem saveDataToLog_extends_of {env : Env} {data : EntryVal} {eventType : String}
    {target : LogTarget} {w : World} {o : Outcome Unit}
    (h : saveDataToLog env data eventType target w = o) : LogsExtend w o.world :=
  h ▸ saveDataToLog_extends env data eventType target w

theorem saveDataToLogWithMetadata_extends_of {env : Env} {data : EntryVal}
    {eventType : String} {metadata : GoMap} {target : LogTarget} {w : World}
    {o : Outcome Unit} (h : saveDataToLogWithMetadata env data eventType metadata target w = o) :
    LogsExtend w o.world :=
  h ▸ saveDataToLogWithMetadata_extends env data eventType metadata target w

theorem getPublicKey_extends_of {env : Env} {command : String} {w : World}
    {r : Except String String} {w1 : World} (h : getPublicKey env command w = (r, w1)) :
    LogsExtend w w1 := by
  have h1 := getPublicKey_extends env command w
  rw [h] at h1
  exact h1

theorem logWalletBalance_extends (env : Env) (w : World) :
    LogsExtend w (logWalletBalance env w).world := by
  unfold logWalletBalance execCommand
  simp only [timeNowUnix]
  split
  · split
    · rename_i hlog
      exact logError_extends_of hlog
    · rename_i hlog
      exact logError_extends_of hlog
  · split
    · rename_i hsave
      exact saveEntryToLog_extends_of hsave
    · rename_i hsave
      exact saveEntryToLog_extends_of hsave

theorem logWalletBalance_extends_of {env : Env} {w : World} {o : Outcome String}
    (h : logWalletBalance env w = o) : LogsExtend w o.world :=
  h ▸ logWalletBalance_extends env w

theorem openAuctionCmd_extends (env : Env) (a i d : String) (p : Float64) (o c : Int)
    (m : String) (w : World) : LogsExtend w (openAuctionCmd env a i d p o c m w).world := by
  unfold openAuctionCmd
  simp only [timeNowUnix, uuidNewString]
  split
  · rename_i w2 hget
    have h1 : LogsExtend w w2 := by have h0 := getPublicKey_extends_of hget; exact h0
    exact h1.trans (logError_extends _ _ _)
  · rename_i w2 hget
    have h1 : LogsExtend w w2 := by have h0 := getPublicKey_extends_of hget; exact h0
    split
    · rename_i w4 hsave
      have h2 : LogsExtend w2 w4 := by have h0 := saveDataToLog_extends_of hsave; exact h0
      exact h1.trans h2
    · rename_i w4 hsave
      have h2 : LogsExtend w2 w4 := by have h0 := saveDataToLog_extends_of hsave; exact h0
      exact (h1.trans h2).trans (printlnJSON_extends _ _ _)

theorem closeAuctionCmd_extends (env : Env) (a : String) (w : World) :
    LogsExtend w (closeAuctionCmd env a w).world := by
  unfold closeAuctionCmd
  simp only [timeNowUnix, printOut]
  split
  · rename_i w1 hget
    have h1 : LogsExtend w w1 := by have h0 := getPublicKey_extends_of hget; exact h0
    exact h1.trans (logError_extends _ _ _)
  · rename_i w1 hget
    have h1 : LogsExtend w w1 := by have h0 := getPublicKey_extends_of hget; exact h0
    split
    · rename_i w3 hsave
      have h2 : LogsExtend w1 w3 := by have h0 := saveEntryToLog_extends_of hsave; exact h0
      exact h1.trans h2
    · rename_i w3 hsave
      have h2 : LogsExtend w1 w3 := by have h0 := saveEntryToLog_extends_of hsave; exact h0
      exact h1.trans h2

theorem placeBidCmd_extends (env : Env) (a b : String) (p : Float64) (m : String)
    (w : World) : LogsExtend w (placeBidCmd env a b p m w).world := by
  unfold placeBidCmd
  simp only [timeNowUnix, uuidNewString]
  split
  · rename_i w1 hget
    have h1 : LogsExtend w w1 := by have h0 := getPublicKey_extends_of hget; exact h0
    exact h1.trans (logError_extends _ _ _)
  · rename_i w1 hget
    have h1 : LogsExtend w w1 := by have h0 := getPublicKey_extends_of hget; exact h0
    split
    · rename_i w4 hsave
      have h2 : LogsExtend w1 w4 := by have h0 := saveDataToLog_extends_of hsave; exact h0
      exact h1.trans h2
    · rename_i w4 hsave
      have h2 : LogsExtend w1 w4 := by have h0 := saveDataToLog_extends_of hsave; exact h0
      exact (h1.trans h2).trans (printlnJSON_extends _ _ _)

theorem announceWinnerCmd_extends (env : Env) (a b : String) (w : World) :
    LogsExtend w (announceWinnerCmd env a b w).world := by
  unfold announceWinnerCmd
  simp only [timeNowUnix, printOut]
  split
  · rename_i w1 hget
    have h1 : LogsExtend w w1 := by have h0 := getPublicKey_extends_of hget; exact h0
    exact h1.trans (logError_extends _ _ _)
  · rename_i w1 hget
    have h1 : LogsExtend w w1 := by have h0 := getPublicKey_extends_of hget; exact h0
    split
    · rename_i w3 hsave
      have h2 : LogsExtend w1 w3 := by have h0 := saveEntryToLog_extends_of hsave; exact h0
      exact h1.trans h2
    · rename_i w3 hsave
      have h2 : LogsExtend w1 w3 := by have h0 := saveEntryToLog_extends_of hsave; exact h0
      exact h1.trans h2

theorem addInvoiceCmd_extends (env : Env) (a : String) (p : Float64) (m : String)
    (w : World) : LogsExtend w (addInvoiceCmd env a p m w).world := by
  unfold addInvoiceCmd
  simp only [timeNowUnix, uuidNewString, execCommand]
  split
  · exact logError_extends env _ { w with calls := _ }
  · split
    · exact logError_extends env _ { w with calls := _ }
    · split
      · rename_i w5 hsave
        have h2 : LogsExtend w w5 := by have h0 := saveDataToLogWithMetadata_extends_of hsave; exact h0
        exact h2
      · rename_i w5 hsave
        have h2 : LogsExtend w w5 := by have h0 := saveDataToLogWithMetadata_extends_of hsave; exact h0
        exact h2.trans (printlnJSON_extends _ _ _)

theorem payInvoiceCmd_extends (env : Env) (r k : String) (w : World) :
    LogsExtend w (payInvoiceCmd env r k w).world := by
  unfold payInvoiceCmd
  simp only [timeNowUnix, execCommand, printOut]
  split
  · exact logError_extends env _ { w with calls := _ }
  · split
    · exact logError_extends env _ { w with calls := _ }
    · split
      · exact logError_extends env _ { w with calls := _ }
      · split
        · exact logError_extends env _ { w with calls := _ }
        · split
          · exact logError_extends env _ { w with calls := _, stdout := _ }
          · split
            · rename_i w7 hsave
              have h2 : LogsExtend w w7 := by have h0 := saveEntryToLog_extends_of hsave; exact h0
              exact h2
            · rename_i w7 hsave
              have h2 : LogsExtend w w7 := by have h0 := saveEntryToLog_extends_of hsave; exact h0
              split
              · rename_i hbal
                exact h2.trans (logWalletBalance_extends_of hbal)
              · rename_i hbal
                exact h2.trans (logWalletBalance_extends_of hbal)

theorem walletBalanceCmd_extends (env : Env) (w : World) :
    LogsExtend w (walletBalanceCmd env w).world := by
  unfold walletBalanceCmd
  simp only [printOut]
  split
  · rename_i hbal
    exact logWalletBalance_extends_of hbal
  · rename_i w1 hbal
    have h : LogsExtend w w1 := by have h0 := logWalletBalance_extends_of hbal; exact h0
    exact h

theorem queryCmd_extends (env : Env) (q : String) (w : World) :
    LogsExtend w (queryCmd env q w).world := by
  unfold queryCmd
  simp only [execCommand, printOut]
  split
  · split
    · rename_i w2 hlog
      have h : LogsExtend w w2 := by have h0 := logError_extends_of hlog; exact h0
      exact h
    · rename_i w2 hlog
      have h : LogsExtend w w2 := by have h0 := logError_extends_of hlog; exact h0
      exact h
  · split <;> exact LogsExtend.refl w

theorem addIssueCmd_extends (env : Env) (i d : String) (c : Float64) (m : String)
    (w : World) : LogsExtend w (addIssueCmd env i d c m w).world := by
  unfold addIssueCmd
  simp only [timeNowUnix, uuidNewString]
  split
  · rename_i w3 hsave
    have h2 : LogsExtend w w3 := by have h0 := saveDataToLog_extends_of hsave; exact h0
    exact h2
  · rename_i w3 hsave
    have h2 : LogsExtend w w3 := by have h0 := saveDataToLog_extends_of hsave; exact h0
    exact h2.trans (printlnJSON_extends _ _ _)

theorem resolveIssueCmd_extends (env : Env) (i d : String) (w : World) :
    LogsExtend w (resolveIssueCmd env i d w).world := by
  unfold resolveIssueCmd
  simp only [timeNowUnix, printOut]
  split
  · rename_i w2 hsave
    have h2 : LogsExtend w w2 := by have h0 := saveEntryToLog_extends_of hsave; exact h0
    exact h2
  · rename_i w2 hsave
    have h2 : LogsExtend w w2 := by have h0 := saveEntryToLog_extends_of hsave; exact h0
    exact h2

/-- Every invocation leaves each log extended at its end. -/
theorem run_extends (env : Env) (c : Command) (w : World) :
    LogsExtend w (c.run env w).world := by
  cases c with
  | openAuction a i d p o cl m => exact openAuctionCmd_extends env a i d p o cl m w
  | closeAuction a => exact closeAuctionCmd_extends env a w
  | placeBid a b p m => exact placeBidCmd_extends env a b p m w
  | announceWinner a b => exact announceWinnerCmd_extends env a b w
  | addInvoice a p m => exact addInvoiceCmd_extends env a p m w
  | payInvoice r k => exact payInvoiceCmd_extends env r k w
  | walletBalance => exact walletBalanceCmd_extends env w
  | query q => exact queryCmd_extends env q w
  | addIssue i d cst m => exact addIssueCmd_extends env i d cst m w
  | resolveIssue i d => exact resolveIssueCmd_extends env i d w

/-! ## Entries are routed by their type -/

theorem savesRouted_refl (w : World) : SavesRouted w w :=
  ⟨[], by simp, by simp⟩

theorem savesRouted_trans {a b c : World} (h1 : SavesRouted a b) (h2 : SavesRouted b c) :
    SavesRouted a c := by
  obtain ⟨l1, e1, r1⟩ := h1
  obtain ⟨l2, e2, r2⟩ := h2
  refine ⟨l1 ++ l2, by rw [e2, e1, List.append_assoc], ?_⟩
  intro p hp
  rcases List.mem_append.mp hp with h | h
  · exact r1 p h
  · exact r2 p h

/-- A `saveEntryToLog` call of an entry that belongs on its target. -/
theorem saveEntryToLog_routed_of {env : Env} {entry : Entry} {target : LogTarget}
    {w : World} {o : Outcome Unit} (h : saveEntryToLog env entry target w = o)
    (hr : routed (target, entry) = true) : SavesRouted w o.world := by
  obtain ⟨-, h2, -⟩ := saveEntryToLog_outcome env entry target w o h
  refine ⟨[(target, entry)], h2, ?_⟩
  intro p hp
  rw [List.mem_singleton.mp hp]
  exact hr

theorem logError_routed (env : Env) (message : String) (w : World) :
    SavesRouted w (logError env message w).world := by
  have h := @saveEntryToLog_routed_of env (errorEntry (env.now w.clockReads) message)
    LogTarget.sysLogFile { w with clockReads := w.clockReads + 1 } _ rfl rfl
  exact h

theorem logError_routed_of {env : Env} {message : String} {w : World} {o : Outcome Unit}
    (h : logError env message w = o) : SavesRouted w o.world :=
  h ▸ logError_routed env message w

/-- Saving a record under an event type of the public ledger. -/
theorem saveDataToLog_routed_of {env : Env} {data : EntryVal} {eventType : String}
    {w : World} {o : Outcome Unit}
    (h : saveDataToLog env data eventType LogTarget.logFile w = o)
    (hr : ∀ t, routed (LogTarget.logFile, dataEntry eventType t data) = true) :
    SavesRouted w o.world := by
  have h1 := @saveEntryToLog_routed_of env (dataEntry eventType (env.now w.clockReads) data)
    LogTarget.logFile { w with clockReads := w.clockReads + 1 } o h (hr _)
  exact h1

theorem saveDataToLogWithMetadata_routed_of {env : Env} {data : EntryVal}
    {eventType : String} {metadata : GoMap} {w : World} {o : Outcome Unit}
    (h : saveDataToLogWithMetadata env data eventType metadata LogTarget.logFile w = o)
    (hr : ∀ t, routed (LogTarget.logFile, dataEntryWithMetadata eventType t data metadata)
      = true) :
    SavesRouted w o.world := by
  have h1 := @saveEntryToLog_routed_of env
    (dataEntryWithMetadata eventType (env.now w.clockReads) data metadata)
    LogTarget.logFile { w with clockReads := w.clockReads + 1 } o h (hr _)
  exact h1

theorem printlnJSON_routed (env : Env) (data : EntryVal) (w : World) :
    SavesRouted w (printlnJSON env data w).world := by
  obtain ⟨out, hout⟩ := printlnJSON_outcome env data w _ rfl
  rw [hout]
  exact savesRouted_refl w

theorem getPublicKey_routed (env : Env) (command : String) (w : World) :
    SavesRouted w (getPublicKey env command w).2 := by
  unfold getPublicKey execCommand
  simp only []
  split
  · exact savesRouted_refl w
  · split
    · exact savesRouted_refl w
    · split <;> exact savesRouted_refl w

theorem getPublicKey_routed_of {env : Env} {command : String} {w : World}
    {r : Except String String} {w1 : World} (h : getPublicKey env command w = (r, w1)) :
    SavesRouted w w1 := by
  have h1 := getPublicKey_routed env command w
  rw [h] at h1
  exact h1

theorem logWalletBalance_routed (env : Env) (w : World) :
    SavesRouted w (logWalletBalance env w).world := by
  unfold logWalletBalance execCommand
  simp only [timeNowUnix]
  split
  · split
    · rename_i hlog
      exact logError_routed_of hlog
    · rename_i hlog
      exact logError_routed_of hlog
  · split
    · rename_i hsave
      exact saveEntryToLog_routed_of hsave rfl
    · rename_i hsave
      exact saveEntryToLog_routed_of hsave rfl

theorem logWalletBalance_routed_of {env : Env} {w : World} {o : Outcome String}
    (h : logWalletBalance env w = o) : SavesRouted w o.world :=
  h ▸ logWalletBalance_routed env w

theorem openAuctionCmd_routed (env : Env) (a i d : String) (p : Float64) (o c : Int)
    (m : String) (w : World) : SavesRouted w (openAuctionCmd env a i d p o c m w).world := by
  unfold openAuctionCmd
  simp only [timeNowUnix, uuidNewString]
  split
  · rename_i w2 hget
    have h1 : SavesRouted w w2 := by have h0 := getPublicKey_routed_of hget; exact h0
    exact savesRouted_trans h1 (logError_routed _ _ _)
  · rename_i w2 hget
    have h1 : SavesRouted w w2 := by have h0 := getPublicKey_routed_of hget; exact h0
    split
    · rename_i w4 hsave
      have h2 : SavesRouted w2 w4 := by
        have h0 := saveDataToLog_routed_of hsave (fun _ => rfl); exact h0
      exact savesRouted_trans h1 h2
    · rename_i w4 hsave
      have h2 : SavesRouted w2 w4 := by
        have h0 := saveDataToLog_routed_of hsave (fun _ => rfl); exact h0
      exact savesRouted_trans (savesRouted_trans h1 h2) (printlnJSON_routed _ _ _)

theorem closeAuctionCmd_routed (env : Env) (a : String) (w : World) :
    SavesRouted w (closeAuctionCmd env a w).world := by
  unfold closeAuctionCmd
  simp only [timeNowUnix, printOut]
  split
  · rename_i w1 hget
    have h1 : SavesRouted w w1 := by have h0 := getPublicKey_routed_of hget; exact h0
    exact savesRouted_trans h1 (logError_routed _ _ _)
  · rename_i w1 hget
    have h1 : SavesRouted w w1 := by have h0 := getPublicKey_routed_of hget; exact h0
    split
    · rename_i w3 hsave
      have h2 : SavesRouted w1 w3 := by
        have h0 := saveEntryToLog_routed_of hsave rfl; exact h0
      exact savesRouted_trans h1 h2
    · rename_i w3 hsave
      have h2 : SavesRouted w1 w3 := by
        have h0 := saveEntryToLog_routed_of hsave rfl; exact h0
      exact savesRouted_trans h1 h2

theorem placeBidCmd_routed (env : Env) (a b : String) (p : Float64) (m : String)
    (w : World) : SavesRouted w (placeBidCmd env a b p m w).world := by
  unfold placeBidCmd
  simp only [timeNowUnix, uuidNewString]
  split
  · rename_i w1 hget
    have h1 : SavesRouted w w1 := by have h0 := getPublicKey_routed_of hget; exact h0
    exact savesRouted_trans h1 (logError_routed _ _ _)
  · rename_i w1 hget
    have h1 : SavesRouted w w1 := by have h0 := getPublicKey_routed_of hget; exact h0
    split
    · rename_i w4 hsave
      have h2 : SavesRouted w1 w4 := by
        have h0 := saveDataToLog_routed_of hsave (fun _ => rfl); exact h0
      exact savesRouted_trans h1 h2
    · rename_i w4 hsave
      have h2 : SavesRouted w1 w4 := by
        have h0 := saveDataToLog_routed_of hsave (fun _ => rfl); exact h0
      exact savesRouted_trans (savesRouted_trans h1 h2) (printlnJSON_routed _ _ _)

theorem announceWinnerCmd_routed (env : Env) (a b : String) (w : World) :
    SavesRouted w (announceWinnerCmd env a b w).world := by
  unfold announceWinnerCmd
  simp only [timeNowUnix, printOut]
  split
  · rename_i w1 hget
    have h1 : SavesRouted w w1 := by have h0 := getPublicKey_routed_of hget; exact h0
    exact savesRouted_trans h1 (logError_routed _ _ _)
  · rename_i w1 hget
    have h1 : SavesRouted w w1 := by have h0 := getPublicKey_routed_of hget; exact h0
    split
    · rename_i w3 hsave
      have h2 : SavesRouted w1 w3 := by
        have h0 := saveEntryToLog_routed_of hsave rfl; exact h0
      exact savesRouted_trans h1 h2
    · rename_i w3 hsave
      have h2 : SavesRouted w1 w3 := by
        have h0 := saveEntryToLog_routed_of hsave rfl; exact h0
      exact savesRouted_trans h1 h2

theorem addInvoiceCmd_routed (env : Env) (a : String) (p : Float64) (m : String)
    (w : World) : SavesRouted w (addInvoiceCmd env a p m w).world := by
  unfold addInvoiceCmd
  simp only [timeNowUnix, uuidNewString, execCommand]
  split
  · exact logError_routed env _ { w with calls := _ }
  · split
    · exact logError_routed env _ { w with calls := _ }
    · split
      · rename_i w5 hsave
        have h2 : SavesRouted w w5 := by
          have h0 := saveDataToLogWithMetadata_routed_of hsave (fun _ => rfl); exact h0
        exact h2
      · rename_i w5 hsave
        have h2 : SavesRouted w w5 := by
          have h0 := saveDataToLogWithMetadata_routed_of hsave (fun _ => rfl); exact h0
        exact savesRouted_trans h2 (printlnJSON_routed _ _ _)

theorem payInvoiceCmd_routed (env : Env) (r k : String) (w : World) :
    SavesRouted w (payInvoiceCmd env r k w).world := by
  unfold payInvoiceCmd
  simp only [timeNowUnix, execCommand, printOut]
  split
  · exact logError_routed env _ { w with calls := _ }
  · split
    · exact logError_routed env _ { w with calls := _ }
    · split
      · exact logError_routed env _ { w with calls := _ }
      · split
        · exact logError_routed env _ { w with calls := _ }
        · split
          · exact logError_routed env _ { w with calls := _, stdout := _ }
          · split
            · rename_i w7 hsave
              have h2 : SavesRouted w w7 := by
                have h0 := saveEntryToLog_routed_of hsave rfl; exact h0
              exact h2
            · rename_i w7 hsave
              have h2 : SavesRouted w w7 := by
                have h0 := saveEntryToLog_routed_of hsave rfl; exact h0
              split
              · rename_i hbal
                exact savesRouted_trans h2 (logWalletBalance_routed_of hbal)
              · rename_i hbal
                exact savesRouted_trans h2 (logWalletBalance_routed_of hbal)

theorem walletBalanceCmd_routed (env : Env) (w : World) :
    SavesRouted w (walletBalanceCmd env w).world := by
  unfold walletBalanceCmd
  simp only [printOut]
  split
  · rename_i hbal
    exact logWalletBalance_routed_of hbal
  · rename_i w1 hbal
    have h : SavesRouted w w1 := by have h0 := logWalletBalance_routed_of hbal; exact h0
    exact h

theorem queryCmd_routed (env : Env) (q : String) (w : World) :
    SavesRouted w (queryCmd env q w).world := by
  unfold queryCmd
  simp only [execCommand, printOut]
  split
  · split
    · rename_i w2 hlog
      have h : SavesRouted w w2 := by have h0 := logError_routed_of hlog; exact h0
      exact h
    · rename_i w2 hlog
      have h : SavesRouted w w2 := by have h0 := logError_routed_of hlog; exact h0
      exact h
  · split <;> exact savesRouted_refl w

theorem addIssueCmd_routed (env : Env) (i d : String) (c : Float64) (m : String)
    (w : World) : SavesRouted w (addIssueCmd env i d c m w).world := by
  unfold addIssueCmd
  simp only [timeNowUnix, uuidNewString]
  split
  · rename_i w3 hsave
    have h2 : SavesRouted w w3 := by
      have h0 := saveDataToLog_routed_of hsave (fun _ => rfl); exact h0
    exact h2
  · rename_i w3 hsave
    have h2 : SavesRouted w w3 := by
      have h0 := saveDataToLog_routed_of hsave (fun _ => rfl); exact h0
    exact savesRouted_trans h2 (printlnJSON_routed _ _ _)

theorem resolveIssueCmd_routed (env : Env) (i d : String) (w : World) :
    SavesRouted w (resolveIssueCmd env i d w).world := by
  unfold resolveIssueCmd
  simp only [timeNowUnix, printOut]
  split
  · rename_i w2 hsave
    have h2 : SavesRouted w w2 := by
      have h0 := saveEntryToLog_routed_of hsave rfl; exact h0
    exact h2
  · rename_i w2 hsave
    have h2 : SavesRouted w w2 := by
      have h0 := saveEntryToLog_routed_of hsave rfl; exact h0
    exact h2

/-- Every invocation hands the writer only entries that belong on their
target. -/
theorem run_routed (env : Env) (c : Command) (w : World) :
    SavesRouted w (c.run env w).world := by
  cases c with
  | openAuction a i d p o cl m => exact openAuctionCmd_routed env a i d p o cl m w
  | closeAuction a => exact closeAuctionCmd_routed env a w
  | placeBid a b p m => exact placeBidCmd_routed env a b p m w
  | announceWinner a b => exact announceWinnerCmd_routed env a b w
  | addInvoice a p m => exact addInvoiceCmd_routed env a p m w
  | payInvoice r k => exact payInvoiceCmd_routed env r k w
  | walletBalance => exact walletBalanceCmd_routed env w
  | query q => exact queryCmd_routed env q w
  | addIssue i d cst m => exact addIssueCmd_routed env i d cst m w
  | resolveIssue i d => exact resolveIssueCmd_routed env i d w

/-- What `routed` says, ledger by ledger. -/
theorem routed_spec (target : LogTarget) (entry : Entry) (h : routed (target, entry) = true) :
    (∃ t, entryType entry = some t ∧ t ∈ eventTypes) ∧
    (target = LogTarget.sysLogFile →
      entryType entry = some "error" ∧ ∃ message, entryString entry "message" = some message) ∧
    (target = LogTarget.privateLogFile →
      entryType entry = some "invoice-paid" ∨ entryType entry = some "wallet-balance") ∧
    (target = LogTarget.logFile →
      (∃ t, entryType entry = some t ∧ t ∈ publicEventTypes) ∧
      entryType entry ≠ some "wallet-balance" ∧ entryType entry ≠ some "invoice-paid" ∧
      entryType entry ≠ some "error") := by
  cases target with
  | logFile =>
    simp only [routed, publicEventTypes, List.any_cons, List.any_nil, Bool.or_false,
      Bool.or_eq_true, decide_eq_true_eq] at h
    have hpub : ∃ t, entryType entry = some t ∧ t ∈ publicEventTypes := by
      rcases h with h | h | h | h | h | h | h <;>
        exact ⟨_, h, by simp [publicEventTypes]⟩
    obtain ⟨t, ht, htm⟩ := hpub
    refine ⟨⟨t, ht, ?_⟩, by simp, by simp, fun _ => ⟨⟨t, ht, htm⟩, ?_, ?_, ?_⟩⟩
    · simp only [publicEventTypes, List.mem_cons, List.mem_singleton] at htm
      simp only [eventTypes, List.mem_cons, List.mem_singleton]
      tauto
    all_goals
      rw [ht]
      intro hne
      rw [Option.some.injEq] at hne
      subst hne
      simp [publicEventTypes] at htm
  | privateLogFile =>
    simp only [routed, Bool.or_eq_true, decide_eq_true_eq] at h
    refine ⟨?_, by simp, fun _ => h, by simp⟩
    rcases h with h | h <;> exact ⟨_, h, by simp [eventTypes]⟩
  | sysLogFile =>
    simp only [routed, Bool.and_eq_true, decide_eq_true_eq, Option.isSome_iff_exists] at h
    exact ⟨⟨_, h.1, by simp [eventTypes]⟩, fun _ => h, by simp, by simp⟩

/-! ## Claim C1: a failed channel-open -/

/-- Claim C1.  When the `openchannel` call of `pay-invoice` fails, the command
makes no further external call (no `payinvoice`, `lookupinvoice` or
`closechannel`), leaves the public and the private ledger as they were, and
the one entry it hands to the writer is an `error` entry for the diagnostic
ledger, so no `invoice-paid` event reaches any ledger. -/
theorem payInvoice_openChannel_fails (env : Env) (paymentRequest bidderPubKey : String)
    (w : World)
    (hfail : (env.exec w.calls (BackendCall.openchannel bidderPubKey channelCapacity)).err
      ≠ none) :
    (payInvoiceCmd env paymentRequest bidderPubKey w).world.calls
      = w.calls ++ [BackendCall.openchannel bidderPubKey channelCapacity] ∧
    (∀ c ∈ ((payInvoiceCmd env paymentRequest bidderPubKey w).world.calls).drop w.calls.length,
      c ≠ BackendCall.payinvoice paymentRequest ∧
      c ≠ BackendCall.lookupinvoice paymentRequest ∧
      c ≠ BackendCall.closechannel bidderPubKey) ∧
    (payInvoiceCmd env paymentRequest bidderPubKey w).world.publicLog = w.publicLog ∧
    (payInvoiceCmd env paymentRequest bidderPubKey w).world.privateLog = w.privateLog ∧
    (∃ t message, (payInvoiceCmd env paymentRequest bidderPubKey w).world.saves
      = w.saves ++ [(LogTarget.sysLogFile, errorEntry t message)]) ∧
    (∀ p ∈ ((payInvoiceCmd env paymentRequest bidderPubKey w).world.saves).drop w.saves.length,
      entryType p.2 ≠ some "invoice-paid") := by
  obtain ⟨e, he⟩ := Option.ne_none_iff_exists'.mp hfail
  have hrun : payInvoiceCmd env paymentRequest bidderPubKey w
      = logError env ("Failed to open channel: " ++ e ++ ", Output: "
          ++ (env.exec w.calls (BackendCall.openchannel bidderPubKey channelCapacity)).out)
          { w with calls := w.calls ++ [BackendCall.openchannel bidderPubKey channelCapacity] } := by
    unfold payInvoiceCmd execCommand
    simp only [he]
  obtain ⟨h1, h2, -, -, -, h6, h7⟩ := logError_rest env
    ("Failed to open channel: " ++ e ++ ", Output: "
      ++ (env.exec w.calls (BackendCall.openchannel bidderPubKey channelCapacity)).out)
    { w with calls := w.calls ++ [BackendCall.openchannel bidderPubKey channelCapacity] }
  rw [hrun]
  refine ⟨h1, ?_, h6, h7, ⟨_, _, h2⟩, ?_⟩
  · rw [h1]
    simp
  · rw [h2]
    simp [errorEntry, entryType]

/-- Witness of `payInvoice_openChannel_fails`: the sample run in which the
channel cannot be opened. -/
theorem payInvoice_openChannel_fails_witness :
    ((sampleEnv scriptOpenFails).exec emptyWorld.calls
        (BackendCall.openchannel "03ff" channelCapacity)).err ≠ none ∧
    (payInvoiceCmd (sampleEnv scriptOpenFails) "lnbc1" "03ff" emptyWorld).world.calls
      = emptyWorld.calls ++ [BackendCall.openchannel "03ff" channelCapacity] ∧
    (payInvoiceCmd (sampleEnv scriptOpenFails) "lnbc1" "03ff" emptyWorld).world.privateLog
      = emptyWorld.privateLog :=
  ⟨by decide,
   (payInvoice_openChannel_fails (sampleEnv scriptOpenFails) "lnbc1" "03ff" emptyWorld
      (by decide)).1,
   (payInvoice_openChannel_fails (sampleEnv scriptOpenFails) "lnbc1" "03ff" emptyWorld
      (by decide)).2.2.2.1⟩

/-! ## Claim C2: a failure after the channel is open -/

/-- Claim C2, the code at the failing inputs.  In the sample run whose
`payinvoice` call fails, and in the one whose `lookupinvoice` call fails, the
channel to `03ff` has been opened and the command returns, having written
its error entry, without any `closechannel` call. -/
theorem payInvoice_failure_leaves_channel_open :
    (payInvoiceCmd (sampleEnv scriptPayFails) "lnbc1" "03ff" emptyWorld).world.calls
      = [BackendCall.openchannel "03ff" "1000000000000", BackendCall.payinvoice "lnbc1"] ∧
    (payInvoiceCmd (sampleEnv scriptPayFails) "lnbc1" "03ff" emptyWorld).world.sysLog
      = "<error>\n" ∧
    (payInvoiceCmd (sampleEnv scriptPayFails) "lnbc1" "03ff" emptyWorld).isFatal = false ∧
    BackendCall.closechannel "03ff"
      ∉ (payInvoiceCmd (sampleEnv scriptPayFails) "lnbc1" "03ff" emptyWorld).world.calls ∧
    (payInvoiceCmd (sampleEnv scriptLookupFails) "lnbc1" "03ff" emptyWorld).world.calls
      = [BackendCall.openchannel "03ff" "1000000000000", BackendCall.payinvoice "lnbc1",
         BackendCall.lookupinvoice "lnbc1"] ∧
    BackendCall.closechannel "03ff"
      ∉ (payInvoiceCmd (sampleEnv scriptLookupFails) "lnbc1" "03ff" emptyWorld).world.calls := by
  decide

/-! ## Claim C3: recording the payment -/

/-- Claim C3, the code at the failing inputs.  In the sample runs whose
`openchannel` and `payinvoice` calls succeed, so that the invoice is paid:
when the `lookupinvoice` call fails, or its output is not JSON, the command
returns having handed the writer one `error` entry only, and the private
ledger stays empty; when the lookup reports `SETTLED` and the `closechannel`
call fails, the command has printed `Invoice paid successfully` and again
records nothing on the private ledger.  On the sibling path, a lookup that
reports a state other than `SETTLED`, the `invoice-paid` event with the raw
`payinvoice` output is recorded. -/
theorem payInvoice_paid_but_not_recorded :
    ((scriptLookupFails (BackendCall.openchannel "03ff" channelCapacity)).err = none ∧
     (scriptLookupFails (BackendCall.payinvoice "lnbc1")).err = none ∧
     (payInvoiceCmd (sampleEnv scriptLookupFails) "lnbc1" "03ff" emptyWorld).world.calls
       = [BackendCall.openchannel "03ff" "1000000000000", BackendCall.payinvoice "lnbc1",
          BackendCall.lookupinvoice "lnbc1"] ∧
     (payInvoiceCmd (sampleEnv scriptLookupFails) "lnbc1" "03ff" emptyWorld).world.privateLog
       = "" ∧
     (payInvoiceCmd (sampleEnv scriptLookupFails) "lnbc1" "03ff" emptyWorld).world.saves
       = [(LogTarget.sysLogFile,
           errorEntry 1000 "Failed to lookup invoice: exit status 1, Output: timeout")]) ∧
    ((payInvoiceCmd (sampleEnv scriptLookupGarbled) "lnbc1" "03ff" emptyWorld).world.privateLog
       = "" ∧
     (payInvoiceCmd (sampleEnv scriptLookupGarbled) "lnbc1" "03ff" emptyWorld).world.saves
       = [(LogTarget.sysLogFile,
           errorEntry 1000 "Failed to parse lookup invoice output: invalid character")]) ∧
    ((scriptCloseFails (BackendCall.payinvoice "lnbc1")).err = none ∧
     (payInvoiceCmd (sampleEnv scriptCloseFails) "lnbc1" "03ff" emptyWorld).world.stdout
       = ["Invoice paid successfully. Payment request: lnbc1\n"] ∧
     (payInvoiceCmd (sampleEnv scriptCloseFails) "lnbc1" "03ff" emptyWorld).world.privateLog
       = "" ∧
     (payInvoiceCmd (sampleEnv scriptCloseFails) "lnbc1" "03ff" emptyWorld).world.saves
       = [(LogTarget.sysLogFile,
           errorEntry 1000 "Failed to close channel: exit status 1, Output: channel busy")]) ∧
    ((payInvoiceCmd (sampleEnv scriptLookupOpen) "lnbc1" "03ff" emptyWorld).world.stdout
       = ["Payment not settled yet or failed.\n"] ∧
     (payInvoiceCmd (sampleEnv scriptLookupOpen) "lnbc1" "03ff" emptyWorld).world.saves
       = [(LogTarget.privateLogFile, invoicePaidEntry "lnbc1" "payment-preimage" 1000),
          (LogTarget.privateLogFile, walletBalanceEntry "balance-7" 1001)] ∧
     (payInvoiceCmd (sampleEnv scriptLookupOpen) "lnbc1" "03ff" emptyWorld).world.privateLog
       = "<invoice-paid>\n<wallet-balance>\n") := by
  decide

/-- The recording path of `pay-invoice`.  When the `openchannel`, `payinvoice`,
`lookupinvoice` and `closechannel` calls succeed and the lookup output
decodes, then whatever state the lookup reports the command hands the writer
exactly one `invoice-paid` entry, for the private ledger, carrying the payment
request and the raw `payinvoice` output as metadata; the public ledger is
unchanged,
and when the file operations of that append succeed the private ledger grows
by that record and a newline (followed by what `logWalletBalance` adds). -/
theorem payInvoice_records_payment (env : Env) (paymentRequest bidderPubKey : String)
    (w : World) (lookupResult : GoMap)
    (hopen : (env.exec w.calls (BackendCall.openchannel bidderPubKey channelCapacity)).err
      = none)
    (hpay : (env.exec (w.calls ++ [BackendCall.openchannel bidderPubKey channelCapacity])
      (BackendCall.payinvoice paymentRequest)).err = none)
    (hlook : (env.exec (w.calls ++ [BackendCall.openchannel bidderPubKey channelCapacity]
      ++ [BackendCall.payinvoice paymentRequest])
      (BackendCall.lookupinvoice paymentRequest)).err = none)
    (hparse : env.jsonUnmarshal
      (env.exec (w.calls ++ [BackendCall.openchannel bidderPubKey channelCapacity]
        ++ [BackendCall.payinvoice paymentRequest])
        (BackendCall.lookupinvoice paymentRequest)).out = Except.ok lookupResult)
    (hclose : (env.exec (w.calls ++ [BackendCall.openchannel bidderPubKey channelCapacity]
      ++ [BackendCall.payinvoice paymentRequest] ++ [BackendCall.lookupinvoice paymentRequest])
      (BackendCall.closechannel bidderPubKey)).err = none) :
    let event : Entry :=
      invoicePaidEntry paymentRequest
        (env.exec (w.calls ++ [BackendCall.openchannel bidderPubKey channelCapacity])
          (BackendCall.payinvoice paymentRequest)).out
        (env.now w.clockReads)
    (((payInvoiceCmd env paymentRequest bidderPubKey w).world.saves).drop w.saves.length).filter
        (fun p => decide (entryType p.2 = some "invoice-paid"))
      = [(LogTarget.privateLogFile, event)] ∧
    (payInvoiceCmd env paymentRequest bidderPubKey w).world.publicLog = w.publicLog ∧
    (WritesComplete env w.fileOps LogTarget.privateLogFile (env.encode event) →
      ∃ x, (payInvoiceCmd env paymentRequest bidderPubKey w).world.privateLog
        = w.privateLog ++ env.encode event ++ "\n" ++ x) := by
  intro event
  obtain ⟨h1, h2, h3⟩ := payInvoice_effect env paymentRequest bidderPubKey w lookupResult
    hopen hpay hlook hparse hclose
  exact ⟨h1, h2, fun hw => h3 _ (appendCompletes_of_writes env _ _ event rfl hw)⟩

/-- Witness of `payInvoice_records_payment`: the sample run in which every
external call succeeds. -/
theorem payInvoice_records_payment_witness :
    (payInvoiceCmd (sampleEnv scriptOk) "lnbc1" "03ff" emptyWorld).world.publicLog
      = emptyWorld.publicLog ∧
    ∃ x, (payInvoiceCmd (sampleEnv scriptOk) "lnbc1" "03ff" emptyWorld).world.privateLog
      = emptyWorld.privateLog ++ "<invoice-paid>" ++ "\n" ++ x :=
  ⟨(payInvoice_records_payment (sampleEnv scriptOk) "lnbc1" "03ff" emptyWorld
      (some [("state", JVal.str "SETTLED")]) (by decide) (by decide) (by decide) rfl
      (by decide)).2.1,
   (payInvoice_records_payment (sampleEnv scriptOk) "lnbc1" "03ff" emptyWorld
      (some [("state", JVal.str "SETTLED")]) (by decide) (by decide) (by decide) rfl
      (by decide)).2.2 ⟨rfl, by decide, by decide⟩⟩

/-! ## Claim C4: a failed identity query -/

/-- Claim C4.  For `open-auction`, `close-auction`, `place-bid` and
`announce-winner`: when identity resolution fails (the `getinfo` call errors,
its output does not decode to an object, or `identity_pubkey` is missing or
not a string), the command leaves the public and the private ledger as they
were, prints nothing, and hands the writer exactly one entry: an `error`
entry with a timestamp and a message, for the diagnostic ledger, which grows
by exactly that record and a newline when the file operations succeed. -/
theorem identity_failure_writes_error_only (env : Env) (c : Command) (w : World)
    (hc : c.resolvesIdentity = true) (hfail : IdentityFails env w.calls) :
    (c.run env w).world.publicLog = w.publicLog ∧
    (c.run env w).world.privateLog = w.privateLog ∧
    (c.run env w).world.stdout = w.stdout ∧
    ∃ t message,
      (c.run env w).world.saves = w.saves ++ [(LogTarget.sysLogFile, errorEntry t message)] ∧
      (WritesComplete env w.fileOps LogTarget.sysLogFile
          (env.encode (errorEntry t message)) →
        (c.run env w).isFatal = false ∧
        (c.run env w).world.sysLog
          = w.sysLog ++ env.encode (errorEntry t message) ++ "\n") := by
  obtain ⟨h1, h2, h3, t, message, h4, h5⟩ := identity_failure_effect env c w hc hfail
  exact ⟨h1, h2, h3, t, message, h4,
    fun hw => h5 _ (appendCompletes_of_writes env _ _ (errorEntry t message) rfl hw)⟩

/-- Witness of `identity_failure_writes_error_only`: `place-bid` in the sample
run whose `getinfo` answer has no `identity_pubkey`. -/
theorem identity_failure_writes_error_only_witness :
    IdentityFails (sampleEnv scriptGetinfoNoKey) emptyWorld.calls ∧
    ((Command.placeBid "A1" "B1" ⟨0x4062C00000000000⟩ "").run (sampleEnv scriptGetinfoNoKey)
      emptyWorld).world.publicLog = emptyWorld.publicLog :=
  ⟨Or.inr (Or.inr ⟨_, rfl, by decide⟩),
   (identity_failure_writes_error_only (sampleEnv scriptGetinfoNoKey)
      (Command.placeBid "A1" "B1" ⟨0x4062C00000000000⟩ "") emptyWorld rfl
      (Or.inr (Or.inr ⟨_, rfl, by decide⟩))).1⟩

/-! ## Claim C5: bids and the auction state -/

/-- Claim C5 as stated fails.  On the empty public ledger, where replay finds
no auction `A1`, and on the ledger left by `open-auction A1` followed by
`close-auction A1`, where replay finds `A1` in state `Closed`, the sample
`place-bid` on `A1` returns normally and the public ledger has grown by a
`bid-placed` record. -/
theorem placeBid_accepts_bid_on_auction_not_open :
    replay (publicEntries emptyWorld) "A1" = none ∧
    (placeBidCmd (sampleEnv scriptOk) "A1" "B1" ⟨0x4062C00000000000⟩ "" emptyWorld).world.publicLog
      = "<bid-placed>\n" ∧
    (runAll (sampleEnv scriptOk)
      [Command.openAuction "A1" "I1" "" ⟨0x4059000000000000⟩ 1000 2000 "",
       Command.closeAuction "A1"] emptyWorld).publicLog
      = "<auction-opened>\n<auction-closed>\n" ∧
    replay (publicEntries (runAll (sampleEnv scriptOk)
      [Command.openAuction "A1" "I1" "" ⟨0x4059000000000000⟩ 1000 2000 "",
       Command.closeAuction "A1"] emptyWorld)) "A1"
      = some ⟨AuctionState.Closed, none⟩ ∧
    (placeBidCmd (sampleEnv scriptOk) "A1" "B1" ⟨0x4062C00000000000⟩ ""
      (runAll (sampleEnv scriptOk)
        [Command.openAuction "A1" "I1" "" ⟨0x4059000000000000⟩ 1000 2000 "",
         Command.closeAuction "A1"] emptyWorld)).world.publicLog
      = "<auction-opened>\n<auction-closed>\n<bid-placed>\n" ∧
    (placeBidCmd (sampleEnv scriptOk) "A1" "B1" ⟨0x4062C00000000000⟩ ""
      (runAll (sampleEnv scriptOk)
        [Command.openAuction "A1" "I1" "" ⟨0x4059000000000000⟩ 1000 2000 "",
         Command.closeAuction "A1"] emptyWorld)).isFatal = false := by
  decide

/-- Claim C5, amended.  `place-bid` does not consult the ledger.  For every
world (so every public ledger, whatever state replaying it gives the auction)
and every auction id: when identity resolution succeeds with key `k`, the
command hands the writer exactly one entry, a `bid-placed` entry for the
public ledger carrying the bid, and with a bid amount that is neither NaN nor
infinite the public ledger grows by that record and a newline when the file
operations succeed; when identity resolution fails, the public ledger is
unchanged and the one entry handed to the writer is an `error` entry for the
diagnostic ledger, so no `bid-placed` event is appended. -/
theorem placeBid_records_bid_whatever_the_state (env : Env) (auctionID bidderID : String)
    (bidAmount : Float64) (metadata : String) (w : World) :
    (∀ k, IdentityResolves env w.calls k →
      (placeBidCmd env auctionID bidderID bidAmount metadata w).world.saves
        = w.saves ++ [(LogTarget.logFile,
            dataEntry "bid-placed" (env.now (w.clockReads + 1))
              (EntryVal.bid
                { UUID := env.newUUID w.uuids
                  AuctionID := auctionID
                  BidderID := bidderID
                  Amount := bidAmount
                  Metadata := metadata
                  State := "Placed"
                  Timestamp := env.now w.clockReads
                  BidderPubKey := k }))] ∧
      (bidAmount.isFinite = true →
        WritesComplete env w.fileOps LogTarget.logFile
          (env.encode (dataEntry "bid-placed" (env.now (w.clockReads + 1))
            (EntryVal.bid
              { UUID := env.newUUID w.uuids
                AuctionID := auctionID
                BidderID := bidderID
                Amount := bidAmount
                Metadata := metadata
                State := "Placed"
                Timestamp := env.now w.clockReads
                BidderPubKey := k }))) →
        (placeBidCmd env auctionID bidderID bidAmount metadata w).world.publicLog
          = w.publicLog ++ env.encode (dataEntry "bid-placed" (env.now (w.clockReads + 1))
            (EntryVal.bid
              { UUID := env.newUUID w.uuids
                AuctionID := auctionID
                BidderID := bidderID
                Amount := bidAmount
                Metadata := metadata
                State := "Placed"
                Timestamp := env.now w.clockReads
                BidderPubKey := k })) ++ "\n")) ∧
    (IdentityFails env w.calls →
      (placeBidCmd env auctionID bidderID bidAmount metadata w).world.publicLog
        = w.publicLog ∧
      (∃ t message,
        (placeBidCmd env auctionID bidderID bidAmount metadata w).world.saves
          = w.saves ++ [(LogTarget.sysLogFile, errorEntry t message)]) ∧
      ∀ p ∈ ((placeBidCmd env auctionID bidderID bidAmount metadata w).world.saves).drop
          w.saves.length,
        entryType p.2 ≠ some "bid-placed") := by
  refine ⟨fun k hid => ?_, fun hfail => ?_⟩
  · obtain ⟨h1, -, -, h4⟩ := placeBid_effect env auctionID bidderID bidAmount metadata w k hid
    exact ⟨h1, fun hfinite hw => h4 _ (appendCompletes_of_writes env _ _ _
      (dataEntry_marshalable _ _ _ hfinite) hw)⟩
  · obtain ⟨h1, -, -, t, message, h4, -⟩ := identity_failure_effect env
      (Command.placeBid auctionID bidderID bidAmount metadata) w rfl hfail
    refine ⟨h1, ⟨t, message, h4⟩, ?_⟩
    have h5 : (placeBidCmd env auctionID bidderID bidAmount metadata w).world.saves
        = w.saves ++ [(LogTarget.sysLogFile, errorEntry t message)] := h4
    rw [h5]
    simp [errorEntry, entryType]

/-- Witness of `placeBid_records_bid_whatever_the_state`: in the sample runs,
a bid on an auction that was never opened is recorded when identity
resolution succeeds, and no bid is recorded when the `getinfo` answer has no
`identity_pubkey`. -/
theorem placeBid_records_bid_whatever_the_state_witness :
    ((replay (publicEntries emptyWorld) "A1").map AuctionView.state ≠ some AuctionState.Open ∧
      Float64.isFinite ⟨0x4062C00000000000⟩ = true ∧
      IdentityResolves (sampleEnv scriptOk) emptyWorld.calls "02ab" ∧
      IdentityFails (sampleEnv scriptGetinfoNoKey) emptyWorld.calls) ∧
    (placeBidCmd (sampleEnv scriptOk) "A1" "B1" ⟨0x4062C00000000000⟩ "" emptyWorld).world.publicLog
      = emptyWorld.publicLog ++ "<bid-placed>" ++ "\n" ∧
    (placeBidCmd (sampleEnv scriptGetinfoNoKey) "A1" "B1" ⟨0x4062C00000000000⟩ ""
      emptyWorld).world.publicLog = emptyWorld.publicLog :=
  ⟨⟨by decide, by decide, ⟨rfl, _, rfl, by decide⟩, Or.inr (Or.inr ⟨_, rfl, by decide⟩)⟩,
   ((placeBid_records_bid_whatever_the_state (sampleEnv scriptOk) "A1" "B1"
      ⟨0x4062C00000000000⟩ "" emptyWorld).1 "02ab" ⟨rfl, _, rfl, by decide⟩).2
      (by decide) ⟨rfl, by decide, by decide⟩,
   ((placeBid_records_bid_whatever_the_state (sampleEnv scriptGetinfoNoKey) "A1" "B1"
      ⟨0x4062C00000000000⟩ "" emptyWorld).2 (Or.inr (Or.inr ⟨_, rfl, by decide⟩))).1⟩

/-! ## Claim C6: ledger write failures -/

/-- Claim C6, the code at the failing input.  On a full disk (the log opens,
every `Write` fails) `open-auction` and `close-auction` are not ended by
`log.Fatalf`: they return normally having printed the record, respectively
the message `Auction A1 closed.`, while the public ledger is still empty.
Only a log that cannot be opened is fatal: then nothing is printed. -/
theorem write_failure_is_reported_as_success :
    (openAuctionCmd (diskFullEnv scriptOk) "A1" "I1" "" ⟨0x4059000000000000⟩ 1000 2000 ""
      emptyWorld).isFatal = false ∧
    (openAuctionCmd (diskFullEnv scriptOk) "A1" "I1" "" ⟨0x4059000000000000⟩ 1000 2000 ""
      emptyWorld).world.stdout = ["record\n"] ∧
    (openAuctionCmd (diskFullEnv scriptOk) "A1" "I1" "" ⟨0x4059000000000000⟩ 1000 2000 ""
      emptyWorld).world.publicLog = "" ∧
    (closeAuctionCmd (diskFullEnv scriptOk) "A1" emptyWorld).isFatal = false ∧
    (closeAuctionCmd (diskFullEnv scriptOk) "A1" emptyWorld).world.stdout
      = ["Auction A1 closed.\n"] ∧
    (closeAuctionCmd (diskFullEnv scriptOk) "A1" emptyWorld).world.publicLog = "" ∧
    (openAuctionCmd (noLogsEnv scriptOk) "A1" "I1" "" ⟨0x4059000000000000⟩ 1000 2000 ""
      emptyWorld).isFatal = true ∧
    (openAuctionCmd (noLogsEnv scriptOk) "A1" "I1" "" ⟨0x4059000000000000⟩ 1000 2000 ""
      emptyWorld).world.stdout = [] := by
  decide

/-! ## Claim C7: the ledgers are append-only -/

/-- Claim C7.  A `saveEntryToLog` call that completes turns the contents `c`
of its target into `c` followed by the serialised entry and one newline and
leaves the other two logs as they were; and for every invocation, every
environment and each of the three logs, the contents before the command are
a prefix of the contents after it. -/
theorem ledgers_are_append_only :
    (∀ (env : Env) (entry : Entry) (target : LogTarget) (w : World) (js : String),
      AppendCompletes env w.fileOps target entry js →
      (saveEntryToLog env entry target w).isFatal = false ∧
      (saveEntryToLog env entry target w).world.log target = w.log target ++ js ++ "\n" ∧
      ∀ u, u ≠ target → (saveEntryToLog env entry target w).world.log u = w.log u) ∧
    (∀ (env : Env) (c : Command) (w : World) (t : LogTarget),
      ∃ x, (c.run env w).world.log t = w.log t ++ x) :=
  ⟨fun env entry target w js h => saveEntryToLog_outcome_complete env entry target w _ js rfl h,
   fun env c w t => (run_extends env c w).log t⟩

/-- Witness of `ledgers_are_append_only`: a completed append of an error entry
on the empty diagnostic ledger of the sample run. -/
theorem ledgers_are_append_only_witness :
    (saveEntryToLog (sampleEnv scriptOk) (errorEntry 1000 "boom") LogTarget.sysLogFile
      emptyWorld).world.log LogTarget.sysLogFile
      = emptyWorld.log LogTarget.sysLogFile ++ "<error>" ++ "\n" :=
  (ledgers_are_append_only.1 (sampleEnv scriptOk) (errorEntry 1000 "boom")
    LogTarget.sysLogFile emptyWorld "<error>" ⟨rfl, rfl, by decide, by decide⟩).2.1

/-! ## Claim C8: opening an auction -/

/-- Claim C8 as stated fails.  With `--starting-price NaN` (a value the float
flag accepts), `openTime < closeTime` and identity resolution succeeding,
`json.Marshal` rejects the entry and `log.Fatalf` ends `open-auction`: the
public ledger stays empty and nothing is printed. -/
theorem openAuction_nan_price_appends_nothing :
    (1000 : Int) < 2000 ∧
    IdentityResolves (sampleEnv scriptOk) emptyWorld.calls "02ab" ∧
    Float64.isFinite ⟨0x7FF8000000000000⟩ = false ∧
    (openAuctionCmd (sampleEnv scriptOk) "A1" "I1" "" ⟨0x7FF8000000000000⟩ 1000 2000 ""
      emptyWorld).isFatal = true ∧
    (openAuctionCmd (sampleEnv scriptOk) "A1" "I1" "" ⟨0x7FF8000000000000⟩ 1000 2000 ""
      emptyWorld).world.publicLog = "" ∧
    (openAuctionCmd (sampleEnv scriptOk) "A1" "I1" "" ⟨0x7FF8000000000000⟩ 1000 2000 ""
      emptyWorld).world.stdout = [] :=
  ⟨by decide, ⟨rfl, _, rfl, by decide⟩, by decide, by decide, by decide, by decide⟩

/-- Claim C8, amended.  For all flag values with `openTime < closeTime` and a
starting price that is neither NaN nor infinite, when identity resolution
succeeds with key `k`, `open-auction` hands the writer exactly one entry, an
`auction-opened` entry for the public ledger, whose Auction record has state
`Open`, `announcement_time` equal to the clock reading taken at the start of
the call, `auctioneer_pubkey` equal to `k`, and the other fields equal to the
inputs; the private and diagnostic ledgers are unchanged, and when the file
operations succeed the public ledger grows by exactly that record and a
newline. -/
theorem openAuction_appends_opened_event (env : Env) (auctionID issueID issue : String)
    (startingPrice : Float64) (openTime closeTime : Int) (metadata : String) (w : World)
    (k : String) (_hvalid : openTime < closeTime)
    (hfinite : startingPrice.isFinite = true)
    (hid : IdentityResolves env w.calls k) :
    let entry : Entry :=
      dataEntry "auction-opened" (env.now (w.clockReads + 1))
        (EntryVal.auction
          { UUID := env.newUUID w.uuids
            AuctionID := auctionID
            IssueID := issueID
            Issue := issue
            StartingPrice := startingPrice
            OpenTime := openTime
            CloseTime := closeTime
            AnnouncementTime := env.now w.clockReads
            Metadata := metadata
            State := "Open"
            Timestamp := env.now w.clockReads
            AuctioneerPubKey := k })
    (openAuctionCmd env auctionID issueID issue startingPrice openTime closeTime metadata
        w).world.saves = w.saves ++ [(LogTarget.logFile, entry)] ∧
    (openAuctionCmd env auctionID issueID issue startingPrice openTime closeTime metadata
        w).world.privateLog = w.privateLog ∧
    (openAuctionCmd env auctionID issueID issue startingPrice openTime closeTime metadata
        w).world.sysLog = w.sysLog ∧
    (WritesComplete env w.fileOps LogTarget.logFile (env.encode entry) →
      (openAuctionCmd env auctionID issueID issue startingPrice openTime closeTime metadata
        w).world.publicLog = w.publicLog ++ env.encode entry ++ "\n") := by
  intro entry
  obtain ⟨h1, h2, h3, h4⟩ := openAuction_effect env auctionID issueID issue startingPrice
    openTime closeTime metadata w k hid
  exact ⟨h1, h2, h3, fun hw => h4 _ (appendCompletes_of_writes env _ _ entry
    (dataEntry_marshalable _ _ _ hfinite) hw)⟩

/-- Witness of `openAuction_appends_opened_event`: the auction of the
end-to-end scenario in the sample run. -/
theorem openAuction_appends_opened_event_witness :
    ((1000 : Int) < 2000 ∧ Float64.isFinite ⟨0x4059000000000000⟩ = true ∧
      IdentityResolves (sampleEnv scriptOk) emptyWorld.calls "02ab") ∧
    (openAuctionCmd (sampleEnv scriptOk) "A1" "I1" "" ⟨0x4059000000000000⟩ 1000 2000 ""
        emptyWorld).world.publicLog = emptyWorld.publicLog ++ "<auction-opened>" ++ "\n" :=
  ⟨⟨by decide, by decide, rfl, _, rfl, by decide⟩,
   (openAuction_appends_opened_event (sampleEnv scriptOk) "A1" "I1" ""
      ⟨0x4059000000000000⟩ 1000 2000 "" emptyWorld "02ab" (by decide) (by decide)
      ⟨rfl, _, rfl, by decide⟩).2.2.2 ⟨rfl, by decide, by decide⟩⟩

/-! ## Claim C9: the end-to-end auction scenario -/

/-- Claim C9.  From an empty public ledger, with identity resolution
succeeding at every step and a file system that does not fail, the invocations
`open-auction A1` (issue `I1`, starting price 100, open 1000, close 2000),
`place-bid A1 B1` (amount 150), `close-auction A1`, `announce-winner A1 B1`
leave a public ledger of exactly four records, of types `auction-opened`,
`bid-placed`, `auction-closed`, `winner-announced` in this order, the first
with state `Open` and auction id `A1`, the last with auction id `A1` and
bidder id `B1`; replaying the four in log order gives auction `A1` in state
`WinnerAnnounced` with winner `B1`. -/
theorem end_to_end_scenario (env : Env) (w : World)
    (hempty : w.publicLog = "") (hfs : FileSystemOk env)
    (hid : ∀ calls, ∃ k, IdentityResolves env calls k) :
    ∃ e1 e2 e3 e4 : Entry,
      (runAll env
        [Command.openAuction "A1" "I1" "" ⟨0x4059000000000000⟩ 1000 2000 "",
         Command.placeBid "A1" "B1" ⟨0x4062C00000000000⟩ "",
         Command.closeAuction "A1",
         Command.announceWinner "A1" "B1"] w).saves
        = w.saves ++ [(LogTarget.logFile, e1), (LogTarget.logFile, e2),
            (LogTarget.logFile, e3), (LogTarget.logFile, e4)] ∧
      (runAll env
        [Command.openAuction "A1" "I1" "" ⟨0x4059000000000000⟩ 1000 2000 "",
         Command.placeBid "A1" "B1" ⟨0x4062C00000000000⟩ "",
         Command.closeAuction "A1",
         Command.announceWinner "A1" "B1"] w).publicLog
        = env.encode e1 ++ "\n" ++ env.encode e2 ++ "\n" ++ env.encode e3 ++ "\n"
          ++ env.encode e4 ++ "\n" ∧
      [e1, e2, e3, e4].map entryType
        = [some "auction-opened", some "bid-placed", some "auction-closed",
           some "winner-announced"] ∧
      (∃ a : Auction, e1.lookup "data" = some (EntryVal.auction a) ∧ a.State = "Open" ∧
        a.AuctionID = "A1") ∧
      entryString e4 "auction_id" = some "A1" ∧ entryString e4 "bidder_id" = some "B1" ∧
      replay [e1, e2, e3, e4] "A1" = some ⟨AuctionState.WinnerAnnounced, some "B1"⟩ := by
  have hc : ∀ (k : Nat) (e : Entry), e.all (fun kv => kv.2.marshalable) = true →
      AppendCompletes env k LogTarget.logFile e (env.encode e) :=
    fun k e he => appendCompletes_of_writes env k _ e he (writesComplete_of_ok env hfs _ _ _)
  simp only [runAll, List.foldl, Command.run]
  obtain ⟨k1, hk1⟩ := hid w.calls
  obtain ⟨s1, -, -, p1⟩ := openAuction_effect env "A1" "I1" "" ⟨0x4059000000000000⟩ 1000 2000
    "" w k1 hk1
  have p1 := p1 _ (hc _ _ (dataEntry_marshalable _ _ _
    (show Float64.isFinite ⟨0x4059000000000000⟩ = true by decide)))
  generalize (openAuctionCmd env "A1" "I1" "" ⟨0x4059000000000000⟩ 1000 2000 "" w).world
    = w1 at s1 p1 ⊢
  obtain ⟨k2, hk2⟩ := hid w1.calls
  obtain ⟨s2, -, -, p2⟩ := placeBid_effect env "A1" "B1" ⟨0x4062C00000000000⟩ "" w1 k2 hk2
  have p2 := p2 _ (hc _ _ (dataEntry_marshalable _ _ _
    (show Float64.isFinite ⟨0x4062C00000000000⟩ = true by decide)))
  generalize (placeBidCmd env "A1" "B1" ⟨0x4062C00000000000⟩ "" w1).world = w2 at s2 p2 ⊢
  obtain ⟨k3, hk3⟩ := hid w2.calls
  obtain ⟨s3, -, -, p3⟩ := closeAuction_effect env "A1" w2 k3 hk3
  have p3 := p3 _ (hc _ _ rfl)
  generalize (closeAuctionCmd env "A1" w2).world = w3 at s3 p3 ⊢
  obtain ⟨k4, hk4⟩ := hid w3.calls
  obtain ⟨s4, -, -, p4⟩ := announceWinner_effect env "A1" "B1" w3 k4 hk4
  have p4 := p4 _ (hc _ _ rfl)
  rw [s3, s2, s1] at s4
  rw [p3, p2, p1, hempty] at p4
  simp only [List.append_assoc, List.singleton_append, List.cons_append, List.nil_append]
    at s4
  refine ⟨_, _, _, _, s4, ?_, rfl, ⟨_, rfl, rfl, rfl⟩, rfl, rfl, ?_⟩
  · rw [p4]
    simp
  · rfl

/-- Witness of `end_to_end_scenario`: the scenario in the sample run. -/
theorem end_to_end_scenario_witness :
    ∃ e1 e2 e3 e4 : Entry,
      (runAll (sampleEnv scriptOk)
        [Command.openAuction "A1" "I1" "" ⟨0x4059000000000000⟩ 1000 2000 "",
         Command.placeBid "A1" "B1" ⟨0x4062C00000000000⟩ "",
         Command.closeAuction "A1",
         Command.announceWinner "A1" "B1"] emptyWorld).saves
        = emptyWorld.saves ++ [(LogTarget.logFile, e1), (LogTarget.logFile, e2),
            (LogTarget.logFile, e3), (LogTarget.logFile, e4)] ∧
      (runAll (sampleEnv scriptOk)
        [Command.openAuction "A1" "I1" "" ⟨0x4059000000000000⟩ 1000 2000 "",
         Command.placeBid "A1" "B1" ⟨0x4062C00000000000⟩ "",
         Command.closeAuction "A1",
         Command.announceWinner "A1" "B1"] emptyWorld).publicLog
        = sampleEncode e1 ++ "\n" ++ sampleEncode e2 ++ "\n" ++ sampleEncode e3 ++ "\n"
          ++ sampleEncode e4 ++ "\n" ∧
      [e1, e2, e3, e4].map entryType
        = [some "auction-opened", some "bid-placed", some "auction-closed",
           some "winner-announced"] ∧
      (∃ a : Auction, e1.lookup "data" = some (EntryVal.auction a) ∧ a.State = "Open" ∧
        a.AuctionID = "A1") ∧
      entryString e4 "auction_id" = some "A1" ∧ entryString e4 "bidder_id" = some "B1" ∧
      replay [e1, e2, e3, e4] "A1" = some ⟨AuctionState.WinnerAnnounced, some "B1"⟩ :=
  end_to_end_scenario (sampleEnv scriptOk) emptyWorld rfl
    ⟨fun _ _ => rfl, fun _ _ _ => le_refl _⟩
    (fun _ => ⟨"02ab", rfl, _, rfl, by decide⟩)

/-! ## Claim C10: timestamps of entity records -/

/-- Claim C10 as stated fails.  In the sample run, whose clock advances by one
second per reading, the Bid record written by `place-bid` carries timestamp
1000 inside a ledger entry of timestamp 1001, and the Auction record written
by `open-auction` carries timestamp 1000, its announcement time, inside a
ledger entry of timestamp 1001. -/
theorem entity_timestamp_differs_from_entry_timestamp :
    (placeBidCmd (sampleEnv scriptOk) "A1" "B1" ⟨0x4062C00000000000⟩ "" emptyWorld).world.saves
      = [(LogTarget.logFile,
          [("type", EntryVal.str "bid-placed"), ("timestamp", EntryVal.int 1001),
           ("data", EntryVal.bid
              { UUID := "uuid-0"
                AuctionID := "A1"
                BidderID := "B1"
                Amount := ⟨0x4062C00000000000⟩
                Metadata := ""
                State := "Placed"
                Timestamp := 1000
                BidderPubKey := "02ab" })])] ∧
    (openAuctionCmd (sampleEnv scriptOk) "A1" "I1" "" ⟨0x4059000000000000⟩ 1000 2000 ""
      emptyWorld).world.saves
      = [(LogTarget.logFile,
          [("type", EntryVal.str "auction-opened"), ("timestamp", EntryVal.int 1001),
           ("data", EntryVal.auction
              { UUID := "uuid-0"
                AuctionID := "A1"
                IssueID := "I1"
                Issue := ""
                StartingPrice := ⟨0x4059000000000000⟩
                OpenTime := 1000
                CloseTime := 2000
                AnnouncementTime := 1000
                Metadata := ""
                State := "Open"
                Timestamp := 1000
                AuctioneerPubKey := "02ab" })])] := by
  decide

/-- Claim C10, amended.  For every environment (so every behaviour of the
clock) and every event written with an entity record, the timestamp stored
in the record is the clock reading the command takes when it builds the
record, which for `auction-opened` is the announcement time read at the start
of the command, and the timestamp of the ledger entry that carries the record
is the next clock reading, taken by `saveDataToLog` or
`saveDataToLogWithMetadata`. -/
theorem entity_timestamp_is_the_reading_before_the_entry (env : Env) (w : World) :
    (∀ (a i d : String) (p : Float64) (o cl : Int) (m k : String),
      IdentityResolves env w.calls k →
      ∃ r : Auction,
        (openAuctionCmd env a i d p o cl m w).world.saves
          = w.saves ++ [(LogTarget.logFile,
              dataEntry "auction-opened" (env.now (w.clockReads + 1)) (EntryVal.auction r))] ∧
        r.Timestamp = env.now w.clockReads ∧ r.AnnouncementTime = env.now w.clockReads) ∧
    (∀ (a b : String) (p : Float64) (m k : String),
      IdentityResolves env w.calls k →
      ∃ r : Bid,
        (placeBidCmd env a b p m w).world.saves
          = w.saves ++ [(LogTarget.logFile,
              dataEntry "bid-placed" (env.now (w.clockReads + 1)) (EntryVal.bid r))] ∧
        r.Timestamp = env.now w.clockReads) ∧
    (∀ (i d : String) (c : Float64) (m : String),
      ∃ r : Issue,
        (addIssueCmd env i d c m w).world.saves
          = w.saves ++ [(LogTarget.logFile,
              dataEntry "issue-created" (env.now (w.clockReads + 1)) (EntryVal.issue r))] ∧
        r.Timestamp = env.now w.clockReads) ∧
    (∀ (a : String) (p : Float64) (m : String) (lncliResult : GoMap),
      (env.exec w.calls (BackendCall.addinvoice (toString (env.toMilli p)))).err = none →
      env.jsonUnmarshal (env.exec w.calls
        (BackendCall.addinvoice (toString (env.toMilli p)))).out = Except.ok lncliResult →
      ∃ r : Invoice,
        (addInvoiceCmd env a p m w).world.saves
          = w.saves ++ [(LogTarget.logFile,
              dataEntryWithMetadata "invoice-created" (env.now (w.clockReads + 1))
                (EntryVal.invoice r) lncliResult)] ∧
        r.Timestamp = env.now w.clockReads) :=
  ⟨fun a i d p o cl m k hid =>
      ⟨_, (openAuction_effect env a i d p o cl m w k hid).1, rfl, rfl⟩,
   fun a b p m k hid => ⟨_, (placeBid_effect env a b p m w k hid).1, rfl⟩,
   fun i d c m => ⟨_, addIssue_effect env i d c m w, rfl⟩,
   fun a p m lm hcall hparse => ⟨_, addInvoice_effect env a p m w lm hcall hparse, rfl⟩⟩

/-- Witness of `entity_timestamp_is_the_reading_before_the_entry`: the
`place-bid` of the sample run. -/
theorem entity_timestamp_is_the_reading_before_the_entry_witness :
    ∃ r : Bid,
      (placeBidCmd (sampleEnv scriptOk) "A1" "B1" ⟨0x4062C00000000000⟩ "" emptyWorld).world.saves
        = emptyWorld.saves ++ [(LogTarget.logFile,
            dataEntry "bid-placed" ((sampleEnv scriptOk).now (emptyWorld.clockReads + 1))
              (EntryVal.bid r))] ∧
      r.Timestamp = (sampleEnv scriptOk).now emptyWorld.clockReads :=
  (entity_timestamp_is_the_reading_before_the_entry (sampleEnv scriptOk) emptyWorld).2.1
    "A1" "B1" ⟨0x4062C00000000000⟩ "" "02ab" ⟨rfl, _, rfl, by decide⟩

/-! ## Claim C11: entries are routed by their type -/

/-- Claim C11.  For every invocation, every flag value and every environment
(so every backend behaviour), each entry the command hands to the writer has
a type of the closed ten-value enumeration and goes to the ledger of its
type: on the diagnostic ledger only `error` entries with a message, on the
private ledger only `invoice-paid` and `wallet-balance` entries, on the public
ledger only entries of the seven types `auction-opened`, `auction-closed`,
`winner-announced`, `bid-placed`, `issue-created`, `issue-resolved`,
`invoice-created`; so no `wallet-balance`, `invoice-paid` or `error` entry is
written to the public ledger. -/
theorem appended_entries_are_routed_by_type (env : Env) (c : Command) (w : World) :
    ∃ added, (c.run env w).world.saves = w.saves ++ added ∧
      ∀ target entry, (target, entry) ∈ added →
        (∃ t, entryType entry = some t ∧ t ∈ eventTypes) ∧
        (target = LogTarget.sysLogFile →
          entryType entry = some "error" ∧
          ∃ message, entryString entry "message" = some message) ∧
        (target = LogTarget.privateLogFile →
          entryType entry = some "invoice-paid" ∨ entryType entry = some "wallet-balance") ∧
        (target = LogTarget.logFile →
          (∃ t, entryType entry = some t ∧ t ∈ publicEventTypes) ∧
          entryType entry ≠ some "wallet-balance" ∧ entryType entry ≠ some "invoice-paid" ∧
          entryType entry ≠ some "error") := by
  obtain ⟨added, hsaves, hrouted⟩ := run_routed env c w
  exact ⟨added, hsaves, fun target entry hmem =>
    routed_spec target entry (hrouted (target, entry) hmem)⟩

end GhIssueMarket
